import Mathlib

/-
Verification of the Pinky compiler back-end (src/.github/workflows/release.yml,
embedded compiler module) and the lexer (src/src/lexer.ts) against the
natural-language specification.

The helper modules of the compiler (compiler/wasm, compiler/state,
compiler/functions, tokens.ts) are not part of the sources; the definitions
below that come from them are modelled from the specification and say so in
their doc comments.  Everything else is translated from the TypeScript source.
-/

deriving instance DecidableEq for Except

namespace PinkyC

/-- A byte, kept as a natural number (all emitters produce values < 256). -/
abbrev Byte := Nat

/-- Modelled from the spec: compiler/wasm is not under src/.
uleb128 per DWARF rules (spec 4.A). -/
def unsignedLEB (n : Nat) : List Byte :=
  let b := n % 128
  let rest := n / 128
  if h : rest = 0 then [b]
  else (b + 128) :: unsignedLEB rest
termination_by n
decreasing_by
  have hn : n ≠ 0 := by
    intro h0
    subst h0
    exact h rfl
  exact Nat.div_lt_self (Nat.pos_of_ne_zero hn) (by norm_num)

/-- Modelled from the spec: compiler/wasm is not under src/.
sleb128 per DWARF rules (spec 4.A). -/
def signedLEB (n : Int) : List Byte :=
  let q := Int.fdiv n 128
  let b := (Int.fmod n 128).toNat
  if (q = 0 ∧ b < 64) ∨ (q = -1 ∧ 64 ≤ b) then [b]
  else (b + 128) :: signedLEB q
termination_by n.natAbs
decreasing_by
  rename_i hne
  have h1 : 128 * Int.fdiv n 128 + Int.fmod n 128 = n := Int.fdiv_add_fmod n 128
  have h2 : 0 ≤ Int.fmod n 128 := Int.fmod_nonneg' n (by norm_num)
  have h3 : Int.fmod n 128 < 128 := Int.fmod_lt_of_pos n (by norm_num)
  omega

/-- Modelled from the spec: compiler/wasm is not under src/.
UTF-8 encoding of one scalar value. -/
def utf8Char (c : Char) : List Byte :=
  let n := c.toNat
  if n < 0x80 then [n]
  else if n < 0x800 then [0xC0 + n / 64, 0x80 + n % 64]
  else if n < 0x10000 then
    [0xE0 + n / 4096, 0x80 + (n / 64) % 64, 0x80 + n % 64]
  else
    [0xF0 + n / 262144, 0x80 + (n / 4096) % 64, 0x80 + (n / 64) % 64,
     0x80 + n % 64]

/-- UTF-8 bytes of a string. -/
def utf8 (s : List Char) : List Byte := s.flatMap utf8Char

/-- Modelled from the spec: compiler/wasm is not under src/.
encode_string: uleb128 byte length then raw UTF-8 (spec 4.A). -/
def encodeString (s : String) : List Byte :=
  let bs := utf8 s.data
  unsignedLEB bs.length ++ bs

/-- Modelled from the spec: compiler/wasm is not under src/.
emit_section id payload = id, uleb128 (len payload), payload (spec 4.A). -/
def emitSection (id : Byte) (payload : List Byte) : List Byte :=
  id :: (unsignedLEB payload.length ++ payload)

/- Opcode helpers.  Modelled from the spec: compiler/wasm is not under src/;
opcode bytes are the table of spec 6.3. -/

def i32Const (n : Int) : List Byte := 0x41 :: signedLEB n
/-- f64.const over the 8 little-endian IEEE-754 bytes of the value.
Number literals are modelled by their 8-byte IEEE-754 representation, which
is in bijection with the f64 values the source stores. -/
def f64Const (bits : List Byte) : List Byte := 0x44 :: bits
/-- IEEE-754 bits (little-endian) of the double 1.0. -/
def oneBits : List Byte := [0, 0, 0, 0, 0, 0, 0xF0, 0x3F]
/-- IEEE-754 bits (little-endian) of the double 0.0. -/
def zeroBits : List Byte := [0, 0, 0, 0, 0, 0, 0, 0]
/-- IEEE-754 negation = flip the sign bit (top bit of the last LE byte). -/
def negBits (bits : List Byte) : List Byte :=
  bits.set 7 ((bits.getD 7 0) ^^^ 0x80)

def localGet (i : Nat) : List Byte := 0x20 :: unsignedLEB i
def localSet (i : Nat) : List Byte := 0x21 :: unsignedLEB i
def callOp (i : Nat) : List Byte := 0x10 :: unsignedLEB i
def blockStart : List Byte := [0x02, 0x40]
def loopStart : List Byte := [0x03, 0x40]
/-- if with empty block type (statement position). -/
def ifStart : List Byte := [0x04, 0x40]
/-- if with result type i32 (value position). -/
def ifStartI32 : List Byte := [0x04, 0x7F]
def ifElse : List Byte := [0x05]
def ifEnd : List Byte := [0x0B]
def brOp (n : Nat) : List Byte := 0x0C :: unsignedLEB n
def brIfOp (n : Nat) : List Byte := 0x0D :: unsignedLEB n
def returnOp : List Byte := [0x0F]
def endOp : List Byte := [0x0B]
def dropOp : List Byte := [0x1A]
def unreachableOp : List Byte := [0x00]
def i32Add : List Byte := [0x6A]
def i32Eqz : List Byte := [0x45]
def i32GeU : List Byte := [0x4F]
def i32Or : List Byte := [0x72]
def f64Add : List Byte := [0xA0]
def f64Eq : List Byte := [0x61]
def f64Lt : List Byte := [0x63]
def f64Gt : List Byte := [0x64]
def f64Neg : List Byte := [0x9A]

/-- WASM value types (spec 6.3 / 4.C): i32 = 0x7F, f64 = 0x7C. -/
inductive VT where
  | i32
  | f64
deriving DecidableEq

def vtByte : VT → Byte
  | .i32 => 0x7F
  | .f64 => 0x7C

/-- A function signature: parameter types and result types. -/
abbrev FuncType := List VT × List VT

/-- Modelled from the spec: compiler/functions is not under src/.
nativeBinOps (spec 4.E / 6.3): the ten f64 operators map to their opcode,
the specially-lowered operators map to null (modelled `some none`), and
anything else is absent (modelled `none`, the JS `undefined`). -/
def nativeBinOps (op : String) : Option (Option Byte) :=
  if op = "+" then some (some 0xA0)
  else if op = "-" then some (some 0xA1)
  else if op = "*" then some (some 0xA2)
  else if op = "/" then some (some 0xA3)
  else if op = "==" then some (some 0x61)
  else if op = "~=" then some (some 0x62)
  else if op = "<" then some (some 0x63)
  else if op = ">" then some (some 0x64)
  else if op = "<=" then some (some 0x65)
  else if op = ">=" then some (some 0x66)
  else if op = "%" ∨ op = "^" ∨ op = "and" ∨ op = "or" then some none
  else none

/-- MAX_ITERATIONS from the source: hard runtime iteration cap. -/
def MAX_ITERATIONS : Nat := 10000

/-- comparisonOps from the source. -/
def comparisonOps : List String := ["==", "~=", ">", ">=", "<", "<="]

/-- Modelled from the spec: compiler/functions is not under src/.
The two imported host functions (spec 4.C/6.2), indices 0 and 1. -/
def importFunctions : List (String × FuncType) :=
  [("print", ([.i32], [])), ("println", ([.i32], []))]

/-- Modelled from the spec: compiler/functions is not under src/.
The fixed runtime-helper catalogue (spec 4.C) plus the synthetic main
function; their relative order inside this list is not fixed by the spec
and is not observable to any claim. -/
def definedFunctions : List (String × FuncType) :=
  [("box_nil", ([], [.i32])),
   ("box_bool", ([.i32], [.i32])),
   ("box_number", ([.f64], [.i32])),
   ("box_string", ([.i32, .i32], [.i32])),
   ("unbox_number", ([.i32], [.f64])),
   ("is_string", ([.i32], [.i32])),
   ("is_bool", ([.i32], [.i32])),
   ("is_number", ([.i32], [.i32])),
   ("is_nil", ([.i32], [.i32])),
   ("is_truthy", ([.i32], [.i32])),
   ("to_number", ([.i32], [.i32])),
   ("concat", ([.i32, .i32], [.i32])),
   ("mod", ([.f64, .f64], [.f64])),
   ("math_pow", ([.f64, .f64], [.f64])),
   ("main", ([], []))]

/-- First index of an association-list entry with the given key. -/
def findIdxOf (l : List (String × α)) (name : String) : Option Nat :=
  l.findIdx? (fun p => p.1 = name)

/-- Modelled from the spec: compiler/functions is not under src/.
The func() index map for import and runtime-helper names: imports take
indices 0..1, defined functions follow (spec: the three sets are disjoint,
each assigned a stable index space). -/
def fnIdx (name : String) : Nat :=
  match findIdxOf importFunctions name with
  | some i => i
  | none =>
    match findIdxOf definedFunctions name with
    | some i => importFunctions.length + i
    | none => 0

/-- Source position (loc.start of an AST node). -/
structure Loc where
  line : Nat
  column : Nat
deriving DecidableEq

/-- An identifier node: name plus source position. -/
structure Ident where
  name : String
  loc : Loc
deriving DecidableEq

/-- The payload of the CompilerError class from the source. -/
structure CompilerError where
  message : String
  line : Nat
  column : Nat
  tokenLength : Nat
deriving DecidableEq

/-- Exceptions thrown inside the compiler: CompilerError instances are
caught and reported, plain Error instances are internal. -/
inductive CErr where
  | compiler (e : CompilerError)
  | internal (message : String)
deriving DecidableEq

/-- The module-level mutable compiler state (compiler/state and
compiler/functions keep these as module-level mutables; here they are one
record threaded through the compilation).
`scopes` keeps the innermost scope first.  `table` is the string table:
the interned strings (as UTF-8 byte lists) in insertion order; the offset
of an entry is the total length of the entries before it.  `funcBodies` is an
insertion-ordered association list with upsert (JS object keyed by name).
`rtBodies` is the fixed catalogue of authored runtime-helper bodies that
resetFunctionBodies restores; those byte sequences are not under src/, so
the compiler is parametric in them.  `paramCount` is the number of
parameter slots of the function being compiled (modelled from the spec:
local declarations cover every slot beyond parameters). -/
structure CState where
  scopes : List (List (String × Nat))
  localVarsIndex : Nat
  paramCount : Nat
  table : List (List Byte)
  userFuncs : List (String × Nat)
  funcBodies : List (String × List Byte)
  rtBodies : List (String × List Byte)
deriving DecidableEq

/-- The compilation monad: state threading plus exceptions that preserve
the state at the throw point (the source mutates module-level state and
throws JS exceptions). -/
def CompileM (α : Type) : Type := CState → Except CErr α × CState

/-- Return a pure value. -/
def CompileM.ret (a : α) : CompileM α := fun s => (.ok a, s)

/-- Sequencing: on error the state at the throw point is kept. -/
def CompileM.bind (m : CompileM α) (f : α → CompileM β) : CompileM β :=
  fun s =>
    match m s with
    | (.ok a, s1) => f a s1
    | (.error e, s1) => (.error e, s1)

/-- Throw a CompilerError. -/
def CompileM.throwCE (message : String) (line column tokenLength : Nat) :
    CompileM α :=
  fun s => (.error (.compiler ⟨message, line, column, tokenLength⟩), s)

/-- Throw a plain (internal) Error. -/
def CompileM.throwErr (message : String) : CompileM α :=
  fun s => (.error (.internal message), s)

/-- Read the state. -/
def CompileM.get (k : CState → CompileM α) : CompileM α := fun s => k s s

/-- Update the state. -/
def CompileM.upd (f : CState → CState) (k : CompileM α) : CompileM α :=
  fun s => k (f s)

/- Pure state operations (compiler/state is not under src/; these are
modelled from spec 4.D). -/

/-- enter_scope: push a fresh innermost name map. -/
def pushScope (s : CState) : CState := { s with scopes := [] :: s.scopes }

/-- exit_scope: pop the innermost name map. -/
def popScope (s : CState) : CState := { s with scopes := s.scopes.tail }

/-- lookup: innermost-out search for a name. -/
def lookupVar (scopes : List (List (String × Nat))) (name : String) :
    Option Nat :=
  match scopes with
  | [] => none
  | sc :: rest =>
    match sc.find? (fun p => p.1 = name) with
    | some p => some p.2
    | none => lookupVar rest name

/-- getVar on the current state. -/
def getVarS (s : CState) (name : String) : Option Nat :=
  lookupVar s.scopes name

/-- declare(name, is_local) (spec 4.D): the local form always creates a
slot in the top scope; the plain form updates the nearest binding and
creates one in the top scope only when none exists.  Returns none only
when no scope exists (never after clearScopes). -/
def declareVarS (name : String) (isLocal : Bool) (s : CState) :
    Option Nat × CState :=
  match s.scopes with
  | [] => (none, s)
  | top :: rest =>
    if isLocal then
      (some s.localVarsIndex,
       { s with scopes := ((name, s.localVarsIndex) :: top) :: rest,
                localVarsIndex := s.localVarsIndex + 1 })
    else
      match lookupVar s.scopes name with
      | some i => (some i, s)
      | none =>
        (some s.localVarsIndex,
         { s with scopes := ((name, s.localVarsIndex) :: top) :: rest,
                  localVarsIndex := s.localVarsIndex + 1 })

/-- consume_scratch: allocate an anonymous slot. -/
def consumeScratchS (s : CState) : Nat × CState :=
  (s.localVarsIndex, { s with localVarsIndex := s.localVarsIndex + 1 })

/-- Monadic wrapper for consume_scratch. -/
def CompileM.scratch (k : Nat → CompileM α) : CompileM α :=
  fun s =>
    let p := consumeScratchS s
    k p.1 p.2

/-- local_decls (spec 4.D/6.2): grouped local declarations, count x i32 for
every slot beyond the parameters. -/
def getLocalDecls (s : CState) : List Byte :=
  let n := s.localVarsIndex - s.paramCount
  if n = 0 then unsignedLEB 0
  else unsignedLEB 1 ++ unsignedLEB n ++ [vtByte .i32]

/-- Total byte length of the string table. -/
def tableLen (table : List (List Byte)) : Nat :=
  (table.map List.length).sum

/-- Offset of an interned string: total length of the entries before it. -/
def tableOffset (table : List (List Byte)) (v : List Byte) : Option Nat :=
  match table with
  | [] => none
  | e :: rest =>
    if e = v then some 0
    else (tableOffset rest v).map (fun off => e.length + off)

/-- intern / getOffset (spec 4.B): return the prior offset of a seen
string, otherwise append its bytes and return the starting offset. -/
def getOffsetS (v : List Byte) (s : CState) : Nat × CState :=
  match tableOffset s.table v with
  | some off => (off, s)
  | none => (tableLen s.table, { s with table := s.table ++ [v] })

/-- getBytes: the final contiguous blob. -/
def tableBytes (table : List (List Byte)) : List Byte := table.flatten

/-- addUserDefinedFunction (name, param count; all types are boxed i32). -/
def addUserFuncS (name : String) (nparams : Nat) (s : CState) : CState :=
  { s with userFuncs := s.userFuncs ++ [(name, nparams)] }

/-- Upsert into an insertion-ordered association list (JS object keyed by
function name). -/
def upsert (l : List (String × List Byte)) (name : String)
    (body : List Byte) : List (String × List Byte) :=
  match l with
  | [] => [(name, body)]
  | (k, v) :: rest =>
    if k = name then (k, body) :: rest else (k, v) :: upsert rest name body

/-- addFunctionBody. -/
def addFunctionBodyS (name : String) (body : List Byte) (s : CState) :
    CState :=
  { s with funcBodies := upsert s.funcBodies name body }

/-- Lookup a stored function body. -/
def lookupBody (l : List (String × List Byte)) (name : String) :
    Option (List Byte) :=
  match l.find? (fun p => p.1 = name) with
  | some p => some p.2
  | none => none

/-- The state-reset performed at the top of _compile: clearScopes,
setLocalVarsIndex 0, clearUserDefinedFunctions, resetFunctionBodies. -/
def resetState (s : CState) : CState :=
  { s with scopes := [[]], localVarsIndex := 0, paramCount := 0,
           userFuncs := [], funcBodies := s.rtBodies }

/-- The state a fresh compilation starts from: an empty string table and
the authored runtime bodies `rt`. -/
def initState (rt : List (String × List Byte)) : CState :=
  { scopes := [[]], localVarsIndex := 0, paramCount := 0, table := [],
    userFuncs := [], funcBodies := rt, rtBodies := rt }

/-- The function-index map for user-defined functions: they follow the
imports and the defined functions (spec: function catalogue). -/
def userFnIdx (userFuncs : List (String × Nat)) (name : String) : Nat :=
  match userFuncs.findIdx? (fun p => p.1 = name) with
  | some i => importFunctions.length + definedFunctions.length + i
  | none => 0

/-- getFunctionReturnCount.  Modelled from the spec: compiler/functions is
not under src/; result counts follow the signature catalogue (user-defined
functions return one boxed value). -/
def getFunctionReturnCount (userFuncs : List (String × Nat))
    (name : String) : Nat :=
  match userFuncs.findIdx? (fun p => p.1 = name) with
  | some _ => 1
  | none =>
    match (definedFunctions.find? (fun p => p.1 = name)) with
    | some p => p.2.2.length
    | none => 0

/- ===== The AST (spec 3; parser and syntax.ts are producers outside the
back-end).  String literal values are carried as their UTF-8 bytes and
number literal values as their 8 little-endian IEEE-754 bytes; both
representations are in bijection with the JS values the source stores. -/

inductive Expression where
  | stringLit (value : List Byte) (loc : Loc)
  | numberLit (bits : List Byte) (loc : Loc)
  | boolLit (value : Bool) (loc : Loc)
  | identifier (name : String) (loc : Loc)
  | grouping (expression : Expression) (loc : Loc)
  | binary (operator : String) (left right : Expression) (loc : Loc)
  | unary (operator : String) (argument : Expression) (loc : Loc)
  | call (name : Ident) (args : List Expression) (loc : Loc)

inductive Statement where
  | println (expression : Expression)
  | print (expression : Expression)
  /-- AssignStatement / LocalAssignStatement (isLocal distinguishes). -/
  | assign (isLocal : Bool) (identifier : Ident) (expression : Expression)
  | ifStmt (condition : Expression) (thenBranch : List Statement)
      (elifBranches : List (Expression × List Statement))
      (elseBranch : Option (List Statement))
  | whileStmt (condition : Expression) (body : List Statement)
  /-- ForStatement: the initialising assignment, the stop expression, the
  optional step expression and the body. -/
  | forStmt (assignment : Statement) (condition : Expression)
      (increment : Option Expression) (body : List Statement)
  | funcDecl (name : Ident) (params : List Ident) (body : List Statement)
  | returnStmt (expression : Expression)
  | exprStmt (expression : Expression)

/-- The AST root handed to compile; the source checks `type = Program`. -/
structure AST where
  type : String
  body : List Statement

/-- Monadic wrapper for declareVar. -/
def CompileM.declare (name : String) (isLocal : Bool)
    (k : Option Nat → CompileM α) : CompileM α :=
  fun s =>
    let p := declareVarS name isLocal s
    k p.1 p.2

/-- Truthiness of a nativeBinOps entry under JS coercion: only a present,
non-zero opcode is truthy (undefined and null are falsy). -/
def nativeOpTruthy : Option (Option Byte) → Bool
  | some (some b) => b != 0
  | _ => false

/-- The byte a nativeBinOps entry contributes when spread into the output
array: a present opcode stands for itself; an absent entry is the JS
`undefined`, which `new Uint8Array` coerces to the byte 0. -/
def nativeOpByte : Option (Option Byte) → Byte
  | some (some b) => b
  | _ => 0

mutual

/-- compileExpression from the source (release.yml embedded module). -/
def compileExpression : Expression → CompileM (List Byte)
  | .stringLit value _ =>
    fun s =>
      let p := getOffsetS value s
      (.ok (i32Const p.1 ++ i32Const value.length ++
            callOp (fnIdx "box_string")), p.2)
  | .numberLit bits _ =>
    .ret (f64Const bits ++ callOp (fnIdx "box_number"))
  | .boolLit value _ =>
    .ret (i32Const (if value then 1 else 0) ++ callOp (fnIdx "box_bool"))
  | .identifier name loc =>
    .get fun st =>
    match getVarS st name with
    | none =>
      .throwCE ("Variable \"" ++ name ++ "\" is not declared")
        loc.line loc.column name.length
    | some i => .ret (localGet i)
  | .grouping e _ => compileExpression e
  | .binary op l r _ =>
    .bind (compileExpression l) fun left =>
    .bind (compileExpression r) fun right =>
    let nativeOp := nativeBinOps op
    -- Special handling of + for string concatenation
    if nativeOpTruthy nativeOp ∧ op = "+" then
      .ret (left ++ callOp (fnIdx "is_string") ++
            right ++ callOp (fnIdx "is_string") ++ i32Or ++
            ifStartI32 ++
              left ++ right ++ callOp (fnIdx "concat") ++
            ifElse ++
              left ++ callOp (fnIdx "is_bool") ++
              right ++ callOp (fnIdx "is_bool") ++ i32Or ++
              ifStartI32 ++
                left ++ callOp (fnIdx "to_number") ++
                callOp (fnIdx "unbox_number") ++
                right ++ callOp (fnIdx "to_number") ++
                callOp (fnIdx "unbox_number") ++
                f64Add ++ callOp (fnIdx "box_number") ++
              ifElse ++
                left ++ callOp (fnIdx "unbox_number") ++
                right ++ callOp (fnIdx "unbox_number") ++
                f64Add ++ callOp (fnIdx "box_number") ++
              ifEnd ++
            ifEnd)
    -- the JS check is nativeOp !== null, so an absent operator (undefined)
    -- also takes this branch and contributes nativeOpByte = 0
    else if nativeOp ≠ some none then
      let ops := left ++ callOp (fnIdx "unbox_number") ++
                 right ++ callOp (fnIdx "unbox_number") ++
                 [nativeOpByte nativeOp]
      if comparisonOps.contains op then
        .ret (ops ++ callOp (fnIdx "box_bool"))
      else
        .ret (ops ++ callOp (fnIdx "box_number"))
    else if op = "%" then
      .ret (left ++ callOp (fnIdx "unbox_number") ++
            right ++ callOp (fnIdx "unbox_number") ++
            callOp (fnIdx "mod") ++ callOp (fnIdx "box_number"))
    else if op = "^" then
      .ret (left ++ callOp (fnIdx "unbox_number") ++
            right ++ callOp (fnIdx "unbox_number") ++
            callOp (fnIdx "math_pow") ++ callOp (fnIdx "box_number"))
    else if op = "and" then
      .scratch fun scratch =>
      .ret (left ++ localSet scratch ++ localGet scratch ++
            callOp (fnIdx "is_truthy") ++
            ifStartI32 ++ right ++
            ifElse ++ localGet scratch ++
            ifEnd)
    else if op = "or" then
      .scratch fun scratch =>
      .ret (left ++ localSet scratch ++ localGet scratch ++
            callOp (fnIdx "is_truthy") ++
            ifStartI32 ++ localGet scratch ++
            ifElse ++ right ++
            ifEnd)
    else
      .throwErr ("Unsupported binary operator: " ++ op)
  | .unary op argument _ =>
    if op = "+" then
      compileExpression argument
    else if op = "-" then
      match argument with
      | .numberLit bits _ =>
        .ret (f64Const (negBits bits) ++ callOp (fnIdx "box_number"))
      | _ =>
        .bind (compileExpression argument) fun a =>
        .ret (a ++ callOp (fnIdx "unbox_number") ++ f64Neg ++
              callOp (fnIdx "box_number"))
    else if op = "~" then
      .bind (compileExpression argument) fun a =>
      .ret (a ++ callOp (fnIdx "unbox_number") ++ f64Const zeroBits ++
            f64Eq ++ callOp (fnIdx "box_bool"))
    else
      .throwErr ("Unsupported unary operator: " ++ op)
  | .call name args loc =>
    .get fun st =>
    let f := st.userFuncs.find? (fun p => p.1 = name.name)
    if name.name = "is_string" then
      if args.length ≠ 1 then
        .throwCE "is_string expects 1 argument"
          loc.line loc.column name.name.length
      else
        .bind (compileArgs args) fun code =>
        .ret (code ++ callOp (fnIdx "is_string") ++ callOp (fnIdx "box_bool"))
    else
      match f with
      | none =>
        .throwCE ("Function \"" ++ name.name ++ "\" is not defined")
          name.loc.line name.loc.column name.name.length
      | some fr =>
        if fr.2 ≠ args.length then
          .throwCE ("Function \"" ++ name.name ++ "\" expects " ++
                    toString fr.2 ++ " arguments, but got " ++
                    toString args.length)
            name.loc.line name.loc.column name.name.length
        else
          .bind (compileArgs args) fun code =>
          .get fun st2 =>
          .ret (code ++ callOp (userFnIdx st2.userFuncs name.name))

/-- args.flatMap over compileExpression, left to right. -/
def compileArgs : List Expression → CompileM (List Byte)
  | [] => .ret []
  | e :: rest =>
    .bind (compileExpression e) fun b =>
    .bind (compileArgs rest) fun bs =>
    .ret (b ++ bs)

end

/-- Parameter slots are declared in order as locals 0..N-1. -/
def declareParams (params : List Ident) (s : CState) : CState :=
  params.foldl (fun st p => (declareVarS p.name true st).2) s

/-- State entry into a function declaration: save nothing here (the caller
keeps the previous values), reset the slot counter and the scope stack,
record the parameter count and declare the parameters. -/
def funcEntry (params : List Ident) (s : CState) : CState :=
  declareParams params
    { s with localVarsIndex := 0, scopes := [[]],
             paramCount := params.length }

/-- Restore the outer slot counter, parameter count and scope stack after
compiling a function body. -/
def restoreAfterFunc (prevIndex prevParams : Nat)
    (prevScopes : List (List (String × Nat))) (s : CState) : CState :=
  { s with localVarsIndex := prevIndex, paramCount := prevParams,
           scopes := prevScopes }

mutual

/-- compileStatement from the source (release.yml embedded module). -/
def compileStatement : Statement → CompileM (List Byte)
  | .println e =>
    .bind (compileExpression e) fun b =>
    .ret (b ++ callOp (fnIdx "println"))
  | .print e =>
    .bind (compileExpression e) fun b =>
    .ret (b ++ callOp (fnIdx "print"))
  | .assign isLocal id e =>
    .bind (compileExpression e) fun b =>
    .declare id.name isLocal fun vi =>
    match vi with
    | none =>
      .throwCE ("Variable \"" ++ id.name ++ "\" is not declared")
        id.loc.line id.loc.column id.name.length
    | some i => .ret (b ++ localSet i)
  | .ifStmt cond thenB elifs elseB =>
    .bind (compileExpression cond) fun condition =>
    .upd pushScope
    (.bind (compileStatements thenB) fun thenBranch =>
     .upd popScope
     (.bind (match elseB with
             | some eb =>
               .upd pushScope
               (.bind (compileStatements eb) fun b =>
                .upd popScope (.ret b))
             | none => .ret []) fun elseBlock0 =>
      .bind (goElifs elifs elseBlock0) fun elseBlock =>
      .ret (condition ++ callOp (fnIdx "is_truthy") ++ ifStart ++
            thenBranch ++ ifElse ++ elseBlock ++ ifEnd)))
  | .whileStmt cond body =>
    .upd pushScope
    (.upd pushScope
     (.bind (compileStatements body) fun bodyB =>
      .upd popScope
      (.bind (compileExpression cond) fun condition =>
       .upd popScope
       (.scratch fun counterIndex =>
        .ret (i32Const 0 ++ localSet counterIndex ++
              blockStart ++ loopStart ++
              localGet counterIndex ++ i32Const (MAX_ITERATIONS : Nat) ++
              i32GeU ++
              ifStart ++ unreachableOp ++ ifEnd ++
              localGet counterIndex ++ i32Const 1 ++ i32Add ++
              localSet counterIndex ++
              condition ++ callOp (fnIdx "is_truthy") ++ i32Eqz ++
              brIfOp 1 ++
              bodyB ++ brOp 0 ++
              endOp ++ endOp)))))
  | .forStmt assignment cond increment body =>
    .upd pushScope
    (.bind (compileStatement assignment) fun init =>
     .get fun st =>
     -- the TS types force the for-initialiser to be an assignment, so the
     -- fallback arm is unreachable from typed ASTs
     match assignment with
     | .assign _ aid _ =>
       match getVarS st aid.name with
       | none =>
         .throwCE ("Variable \"" ++ aid.name ++ "\" is not declared")
           aid.loc.line aid.loc.column aid.name.length
       | some loopVar =>
         .upd pushScope
         (.bind (compileExpression cond) fun condB =>
          .bind (match increment with
                 | some ie => compileExpression ie
                 | none =>
                   -- default increment is 1
                   .ret (f64Const oneBits ++ callOp (fnIdx "box_number")))
            fun step =>
          .bind (compileStatements body) fun loopBody =>
          .upd popScope
          (.upd popScope
           (.scratch fun isDescending =>
            .scratch fun counterIndex =>
            .ret (i32Const 0 ++ localSet counterIndex ++
                  init ++
                  step ++ callOp (fnIdx "unbox_number") ++
                  f64Const zeroBits ++ f64Lt ++ localSet isDescending ++
                  blockStart ++ loopStart ++
                  localGet counterIndex ++
                  i32Const (MAX_ITERATIONS : Nat) ++ i32GeU ++
                  ifStart ++ unreachableOp ++ ifEnd ++
                  localGet counterIndex ++ i32Const 1 ++ i32Add ++
                  localSet counterIndex ++
                  localGet isDescending ++
                  ifStartI32 ++
                    localGet loopVar ++ callOp (fnIdx "unbox_number") ++
                    condB ++ callOp (fnIdx "unbox_number") ++ f64Lt ++
                  ifElse ++
                    localGet loopVar ++ callOp (fnIdx "unbox_number") ++
                    condB ++ callOp (fnIdx "unbox_number") ++ f64Gt ++
                  ifEnd ++
                  brIfOp 1 ++
                  loopBody ++
                  localGet loopVar ++ callOp (fnIdx "unbox_number") ++
                  step ++ callOp (fnIdx "unbox_number") ++ f64Add ++
                  callOp (fnIdx "box_number") ++ localSet loopVar ++
                  brOp 0 ++
                  endOp ++ endOp))))
     | _ => .throwErr "Something went wrong")
  | .funcDecl name params body =>
    .get fun s =>
    if s.userFuncs.any (fun p => p.1 = name.name) then
      .throwCE ("Function \"" ++ name.name ++ "\" is already defined")
        name.loc.line name.loc.column name.name.length
    else
      .upd (addUserFuncS name.name params.length)
      (.upd (funcEntry params)
       (.bind (compileStatements body) fun bodyStmts =>
        .get fun s2 =>
        let bodyBytes := bodyStmts ++ callOp (fnIdx "box_nil") ++ returnOp
        let localDecls := getLocalDecls s2
        .upd (restoreAfterFunc s.localVarsIndex s.paramCount s.scopes)
        (.upd (addFunctionBodyS name.name (localDecls ++ bodyBytes ++ endOp))
         (.ret []))))
  | .returnStmt e =>
    .bind (compileExpression e) fun b =>
    .ret (b ++ returnOp)
  | .exprStmt e =>
    match e with
    | .call name args loc =>
      .bind (compileExpression (.call name args loc)) fun code =>
      .get fun st =>
      if getFunctionReturnCount st.userFuncs name.name > 0 then
        .ret (code ++ dropOp)
      else
        .ret code
    | _ =>
      .bind (compileExpression e) fun b =>
      .ret (b ++ dropOp)

/-- compileStatements: concatenate the lowerings in order. -/
def compileStatements : List Statement → CompileM (List Byte)
  | [] => .ret []
  | st :: rest =>
    .bind (compileStatement st) fun b =>
    .bind (compileStatements rest) fun bs =>
    .ret (b ++ bs)

/-- The elif loop of the IfStatement case: branches are processed from the
last to the first, each wrapping the accumulated else block. -/
def goElifs : List (Expression × List Statement) → List Byte →
    CompileM (List Byte)
  | [], acc => .ret acc
  | (c, body) :: rest, acc =>
    .bind (goElifs rest acc) fun inner =>
    .bind (compileExpression c) fun condition =>
    .upd pushScope
    (.bind (compileStatements body) fun elifBranch =>
     .upd popScope
     (.ret (condition ++ callOp (fnIdx "is_truthy") ++ ifStart ++
            elifBranch ++ ifElse ++ inner ++ ifEnd)))

end

/-- WASM magic + version: the fixed 8-byte module header. -/
def wasmHeader : List Byte := [0x00, 0x61, 0x73, 0x6D, 0x01, 0x00, 0x00, 0x00]

/-- The signature of a user-defined function: N boxed i32 parameters, one
boxed i32 result. -/
def userFnType (nparams : Nat) : FuncType :=
  (List.replicate nparams .i32, [.i32])

/-- All signatures in catalogue order: imports, defined, user-defined. -/
def allFuncTypes (userFuncs : List (String × Nat)) : List FuncType :=
  importFunctions.map (fun p => p.2) ++
  definedFunctions.map (fun p => p.2) ++
  userFuncs.map (fun p => userFnType p.2)

/-- Modelled from the spec: compiler/functions is not under src/.
getFunctionTypes deduplicates signatures, keeping first occurrences. -/
def dedupTypes (l : List FuncType) : List FuncType :=
  l.foldl (fun acc t => if acc.contains t then acc else acc ++ [t]) []

/-- functionIndices: position of a signature in the deduplicated list. -/
def typeIndexOf (types : List FuncType) (t : FuncType) : Option Nat :=
  types.findIdx? (fun x => x = t)

/-- A type-section entry: 0x60, parameter vector, result vector. -/
def encodeFuncType (t : FuncType) : List Byte :=
  0x60 :: (unsignedLEB t.1.length ++ t.1.map vtByte ++
           unsignedLEB t.2.length ++ t.2.map vtByte)

/-- Lift an internal-error computation into the monad. -/
def liftExc (e : Except String α) : CompileM α :=
  match e with
  | .ok a => .ret a
  | .error m => .throwErr m

/-- The function-section index entries for a run of functions; a missing
signature is an internal error (plain Error in the source). -/
def funcSecEntries (types : List FuncType) (msg : String) :
    List (String × FuncType) → Except String (List Byte)
  | [] => .ok []
  | (name, t) :: rest =>
    match typeIndexOf types t with
    | none => .error ("Type not found for " ++ msg ++ " \"" ++ name ++ "\"")
    | some i => (funcSecEntries types msg rest).map (unsignedLEB i ++ ·)

/-- Function section (id 3). -/
def funcSectionBytes (types : List FuncType)
    (userFuncs : List (String × Nat)) : Except String (List Byte) := do
  let d ← funcSecEntries types "function" definedFunctions
  let u ← funcSecEntries types "user-defined function"
    (userFuncs.map (fun p => (p.1, userFnType p.2)))
  pure (emitSection 3
    (unsignedLEB (definedFunctions.length + userFuncs.length) ++ d ++ u))

/-- Import-section entries. -/
def importSecEntries (types : List FuncType) :
    List (String × FuncType) → Except String (List Byte)
  | [] => .ok []
  | (name, t) :: rest =>
    match typeIndexOf types t with
    | none => .error ("Type not found for import \"" ++ name ++ "\"")
    | some i =>
      (importSecEntries types rest).map
        (fun bs => encodeString "env" ++ encodeString name ++
                   [0x00] ++ unsignedLEB i ++ bs)

/-- Import section (id 2): env.print and env.println. -/
def importSectionBytes (types : List FuncType) :
    Except String (List Byte) := do
  let entries ← importSecEntries types importFunctions
  pure (emitSection 2 (unsignedLEB importFunctions.length ++ entries))

/-- Code-section bodies for a run of function names; a missing body is an
internal error. -/
def codeSecEntries (bodies : List (String × List Byte)) :
    List String → Except String (List Byte)
  | [] => .ok []
  | name :: rest =>
    match lookupBody bodies name with
    | none => .error ("Function body for \"" ++ name ++ "\" not found")
    | some body =>
      (codeSecEntries bodies rest).map
        (fun bs => unsignedLEB body.length ++ body ++ bs)

/-- Code section (id 10): the declared count is the number of stored
bodies (distinct names), the emitted run is defined functions then
user-defined functions. -/
def codeSectionBytes (st : CState) : Except String (List Byte) := do
  let d ← codeSecEntries st.funcBodies (definedFunctions.map (fun p => p.1))
  let u ← codeSecEntries st.funcBodies (st.userFuncs.map (fun p => p.1))
  pure (emitSection 10 (unsignedLEB st.funcBodies.length ++ d ++ u))

/-- mainFuncBody: the compiled program body with its local-declaration
prelude and terminating end. -/
def mainFuncBody (ast : AST) : CompileM (List Byte) :=
  .bind (compileStatements ast.body) fun instructions =>
  .get fun s =>
  .ret (getLocalDecls s ++ instructions ++ endOp)

/-- _compile: reset state, lower the program into main, assemble the
sections and concatenate them. -/
def _compile (ast : AST) : CompileM (List Byte) :=
  .upd resetState
  (.bind (mainFuncBody ast) fun mainFunc =>
   .upd (addFunctionBodyS "main" mainFunc)
   (.get fun st =>
    let functionTypes := dedupTypes (allFuncTypes st.userFuncs)
    .bind (liftExc (funcSectionBytes functionTypes st.userFuncs))
      fun funcSection =>
    let typeSection := emitSection 1
      (unsignedLEB functionTypes.length ++
       functionTypes.flatMap encodeFuncType)
    .bind (liftExc (importSectionBytes functionTypes)) fun importSection =>
    let memorySection := emitSection 5 [0x01, 0x00, 0x10]
    let exportSection := emitSection 7
      (unsignedLEB 2 ++
       encodeString "main" ++ [0x00] ++ unsignedLEB (fnIdx "main") ++
       encodeString "memory" ++ [0x02, 0x00])
    .bind (liftExc (codeSectionBytes st)) fun codeSection =>
    let stringBytes := tableBytes st.table
    let dataSection := emitSection 11
      ([0x01, 0x00] ++ i32Const 0 ++ endOp ++
       unsignedLEB stringBytes.length ++ stringBytes)
    let globalSection := emitSection 6
      ([0x01, vtByte .i32, 0x01] ++ i32Const (stringBytes.length + 1) ++
       endOp)
    .ret (wasmHeader ++ typeSection ++ importSection ++ funcSection ++
          memorySection ++ globalSection ++ exportSection ++
          codeSection ++ dataSection)))

/-- The record compile returns. -/
structure CompileResult where
  bytes : List Byte
  error : Option CompilerError
  strings : List Byte
deriving DecidableEq

/-- The body of the try block in compile: the Program check then
_compile. -/
def compileM (ast : AST) : CompileM (List Byte) :=
  if ast.type ≠ "Program" then
    .throwErr "Invalid AST: Expected a Program node"
  else
    _compile ast

/-- compile: runs the try block from a fresh string table; a CompilerError
is caught and reported, any other exception is logged and swallowed, so
bytes stays empty and error stays null.  `rt` is the catalogue of authored
runtime-helper bodies restored by resetFunctionBodies (their bytes are not
under src/, so compile is parametric in them). -/
def compile (rt : List (String × List Byte)) (ast : AST) : CompileResult :=
  match compileM ast (initState rt) with
  | (.ok bytes, st) => ⟨bytes, none, tableBytes st.table⟩
  | (.error (.compiler e), st) => ⟨[], some e, tableBytes st.table⟩
  | (.error (.internal _), st) => ⟨[], none, tableBytes st.table⟩

/-- A concrete instantiation of the runtime-helper bodies for witnesses:
each helper body is a bare end opcode.  Any value works; the claims hold
for every catalogue. -/
def rtStub : List (String × List Byte) :=
  (definedFunctions.filter (fun p => p.1 ≠ "main")).map
    (fun p => (p.1, endOp))

end PinkyC

namespace PinkyLexer

/-
The lexer, translated from src/src/lexer.ts.  Source text is a list of
characters; JS out-of-range string indexing yields the NUL sentinel the
source itself uses for end-of-file.  Token values are lists of characters.
-/

/-- The NUL character, the end-of-file sentinel of the source. -/
def nul : Char := Char.ofNat 0

/-- The single-quote character. -/
def squote : Char := Char.ofNat 39

/-- The backslash character. -/
def bslash : Char := Char.ofNat 92

structure Token where
  type : String
  value : List Char
  line : Nat
  column : Nat
  start : Nat
  stop : Nat
deriving DecidableEq

structure TokenError where
  message : String
  line : Nat
  column : Nat
deriving DecidableEq

structure Pos where
  line : Nat
  column : Nat
  current : Nat
deriving DecidableEq

def isAlpha (c : Char) : Bool :=
  (decide ('a' ≤ c) && decide (c ≤ 'z')) ||
  (decide ('A' ≤ c) && decide (c ≤ 'Z')) || c = '_'

/-- isDigit from the source counts the dot as a digit character. -/
def isDigit (c : Char) : Bool :=
  (decide ('0' ≤ c) && decide (c ≤ '9')) || c = '.'

def isAlphaNumeric (c : Char) : Bool := isAlpha c || isDigit c

def isNewline (c : Char) : Bool := c = '\n'

def isEndOfFile (c : Char) : Bool := c = nul

/-- peek: the character at the index, NUL beyond the end. -/
def peek (src : List Char) (curr : Nat) : Char := src.getD curr nul

/-- lookahead n characters. -/
def lookahead (src : List Char) (curr n : Nat) : Char :=
  src.getD (curr + n) nul

/-- advance: step one character, tracking line and column. -/
def advance (src : List Char) (p : Pos) : Pos :=
  if isNewline (peek src p.current) then
    ⟨p.line + 1, 1, p.current + 1⟩
  else
    ⟨p.line, p.column + 1, p.current + 1⟩

/-- advance applied n times. -/
def advanceN (src : List Char) (p : Pos) : Nat → Pos
  | 0 => p
  | n + 1 => advanceN src (advance src p) n

/-- ESCAPE_SEQUENCES from the source. -/
def escapeSeq (c : Char) : Option Char :=
  if c = 'n' then some '\n'
  else if c = 't' then some '\t'
  else if c = 'r' then some '\r'
  else if c = '"' then some '"'
  else if c = squote then some squote
  else if c = bslash then some bslash
  else if c = '0' then some nul
  else none

def isHexDigit (c : Char) : Bool :=
  (decide ('0' ≤ c) && decide (c ≤ '9')) ||
  (decide ('a' ≤ c) && decide (c ≤ 'f')) ||
  (decide ('A' ≤ c) && decide (c ≤ 'F'))

def hexVal (c : Char) : Nat :=
  if decide ('0' ≤ c) && decide (c ≤ '9') then c.toNat - '0'.toNat
  else if decide ('a' ≤ c) && decide (c ≤ 'f') then c.toNat - 'a'.toNat + 10
  else if decide ('A' ≤ c) && decide (c ≤ 'F') then c.toNat - 'A'.toNat + 10
  else 0

/-- Number.parseInt base 16 on a list of hex digits. -/
def hexToNat (l : List Char) : Nat :=
  l.foldl (fun a c => 16 * a + hexVal c) 0

/-- The hex-collecting loop of the braced unicode escape: collect hex
digits from index i until the end, a closing brace or a non-hex
character; returns the digits and the stopping index. -/
def scanHexBrace (src : List Char) (i : Nat) : List Char × Nat :=
  if i < src.length then
    if src.getD i nul = '}' then ([], i)
    else if isHexDigit (src.getD i nul) then
      (src.getD i nul :: (scanHexBrace src (i + 1)).1,
       (scanHexBrace src (i + 1)).2)
    else ([], i)
  else ([], i)
termination_by src.length - i

/-- The stopping index of the hex loop is at or after its start. -/
theorem scanHexBrace_ge (src : List Char) (i : Nat) :
    i ≤ (scanHexBrace src i).2 := by
  induction i using scanHexBrace.induct src with
  | _ =>
    unfold scanHexBrace
    split_ifs <;> simp_all <;> omega

/-- A non-NUL peek means the index is in range. -/
theorem peek_lt {src : List Char} {n : Nat} (h : peek src n ≠ nul) :
    n < src.length := by
  by_contra hn
  apply h
  simp only [peek, List.getD]
  rw [List.get?_eq_none.mpr (Nat.le_of_not_lt hn)]
  rfl

/-- advance always steps the index by one. -/
theorem advance_current (src : List Char) (p : Pos) :
    (advance src p).current = p.current + 1 := by
  unfold advance
  split_ifs <;> rfl

/-- advanceN steps the index by n. -/
theorem advanceN_current (src : List Char) (p : Pos) (n : Nat) :
    (advanceN src p n).current = p.current + n := by
  induction n generalizing p with
  | zero => rfl
  | succ k ih =>
    show (advanceN src (advance src p) k).current = p.current + (k + 1)
    rw [ih, advance_current]
    omega

/-- decodeStringLiteralSegment from the source.  String.fromCodePoint
throws a RangeError on code points above 0x10FFFF; that uncaught JS
exception is the error case here.  (Lean characters cannot carry lone
surrogate halves, so Char.ofNat stands in for fromCharCode/fromCodePoint;
no claim depends on the decoded character content.  A backslash as the
very last character makes the JS index read `undefined`; the NUL default
plays that role.) -/
def decodeStringLiteralSegment (src : List Char) (start : Nat) :
    Except String (List Char × Nat) :=
  if src.getD (start + 1) nul = 'u' then
    if src.getD (start + 2) nul = '{' then
      -- Unicode escape backslash-u-braces
      if src.getD (scanHexBrace src (start + 3)).2 nul = '}' ∧
         (scanHexBrace src (start + 3)).1 ≠ [] then
        if 0x10FFFF < hexToNat (scanHexBrace src (start + 3)).1 then
          .error "RangeError: Invalid code point"
        else
          .ok ([Char.ofNat (hexToNat (scanHexBrace src (start + 3)).1)],
               (scanHexBrace src (start + 3)).2 - start + 1)
      else
        -- Malformed unicode: fallback to raw
        .ok (bslash :: 'u' :: '\x7b' ::
             ((scanHexBrace src (start + 3)).1 ++ ['}']),
             (scanHexBrace src (start + 3)).2 - start)
    else
      -- Unicode escape backslash-uXXXX
      if ((src.drop (start + 2)).take 4).length = 4 ∧
         ((src.drop (start + 2)).take 4).all isHexDigit then
        .ok ([Char.ofNat (hexToNat ((src.drop (start + 2)).take 4) % 65536)],
             6)
      else
        .ok ([bslash, 'u'], 2)
  else
    -- Simple escape
    .ok ([(escapeSeq (src.getD (start + 1) nul)).getD
          (src.getD (start + 1) nul)], 2)

/-- Every successfully decoded escape consumes at least one character. -/
theorem decode_adv_pos {src : List Char} {start : Nat} {c : List Char}
    {adv : Nat} (h : decodeStringLiteralSegment src start = .ok (c, adv)) :
    1 ≤ adv := by
  have hge := scanHexBrace_ge src (start + 3)
  unfold decodeStringLiteralSegment at h
  split_ifs at h <;> simp_all <;> omega

/-- The collected value and position after the string-literal body loop of
tokenize: consume characters (decoding escapes) until end of input or the
closing quote. -/
def scanString (src : List Char) (quote : Char) (pos : Pos)
    (value : List Char) : Except String (List Char × Pos) :=
  if isEndOfFile (peek src pos.current) ∨ peek src pos.current = quote then
    .ok (value, pos)
  else if peek src pos.current = bslash then
    match hdec : decodeStringLiteralSegment src pos.current with
    | .error m => .error m
    | .ok (decoded, adv) =>
      scanString src quote (advanceN src pos adv) (value ++ decoded)
  else
    scanString src quote (advance src pos) (value ++ [peek src pos.current])
termination_by src.length - pos.current
decreasing_by
  · have h1 : pos.current < src.length := by
      apply peek_lt
      simp only [isEndOfFile, decide_eq_true_eq] at *
      tauto
    have h2 := decode_adv_pos hdec
    rw [advanceN_current]
    omega
  · have h1 : pos.current < src.length := by
      apply peek_lt
      simp only [isEndOfFile, decide_eq_true_eq] at *
      tauto
    rw [advance_current]
    omega

/-- Result of the number-scanning loop: the digits, or the position of a
malformed dot. -/
inductive NumScan where
  | ok (value : List Char) (pos : Pos)
  | malformed (pos : Pos)
deriving DecidableEq

/-- The number-scanning loop of tokenize. -/
def scanNumber (src : List Char) (pos : Pos) (value : List Char) :
    NumScan :=
  if isEndOfFile (peek src pos.current) ∨
     ¬(isDigit (peek src pos.current) ∨ peek src pos.current = '.') then
    .ok value pos
  else if peek src pos.current = '.' ∧
          ¬ isDigit (lookahead src pos.current 1) then
    .malformed pos
  else
    scanNumber src (advance src pos) (value ++ [peek src pos.current])
termination_by src.length - pos.current
decreasing_by
  have h1 : pos.current < src.length := by
    apply peek_lt
    simp only [isEndOfFile, decide_eq_true_eq] at *
    tauto
  rw [advance_current]
  omega

/-- The identifier-scanning loop of tokenize. -/
def scanIdent (src : List Char) (pos : Pos) (value : List Char) :
    List Char × Pos :=
  if isEndOfFile (peek src pos.current) ∨
     ¬ isAlphaNumeric (peek src pos.current) then
    (value, pos)
  else scanIdent src (advance src pos) (value ++ [peek src pos.current])
termination_by src.length - pos.current
decreasing_by
  have h1 : pos.current < src.length := by
    apply peek_lt
    simp only [isEndOfFile, decide_eq_true_eq] at *
    tauto
  rw [advance_current]
  omega

/-- The comment-scanning loop of tokenize. -/
def scanComment (src : List Char) (pos : Pos) (value : List Char) :
    List Char × Pos :=
  if isEndOfFile (peek src pos.current) ∨ peek src pos.current = '\n' then
    (value, pos)
  else scanComment src (advance src pos) (value ++ [peek src pos.current])
termination_by src.length - pos.current
decreasing_by
  have h1 : pos.current < src.length := by
    apply peek_lt
    simp only [isEndOfFile, decide_eq_true_eq] at *
    tauto
  rw [advance_current]
  omega

/-- The string loop never moves backwards. -/
theorem scanString_mono (src : List Char) (quote : Char) (pos : Pos)
    (value : List Char) :
    ∀ v p', scanString src quote pos value = .ok (v, p') →
      pos.current ≤ p'.current := by
  induction pos, value using scanString.induct src quote with
  | case1 pos value h =>
    intro v p' hr
    unfold scanString at hr
    rw [if_pos h] at hr
    simp only [Except.ok.injEq, Prod.mk.injEq] at hr
    obtain ⟨-, h2⟩ := hr
    subst h2
    exact Nat.le_refl _
  | case2 pos value h hb m hde =>
    intro v p' hr
    unfold scanString at hr
    rw [if_neg h, if_pos hb] at hr
    split at hr
    · exact Except.noConfusion hr
    · rename_i heq
      rw [hde] at heq
      cases heq
  | case3 pos value h hb decoded adv hde ih =>
    intro v p' hr
    unfold scanString at hr
    rw [if_neg h, if_pos hb] at hr
    split at hr
    · rename_i heq
      rw [hde] at heq
      cases heq
    · rename_i d a heq
      rw [hde] at heq
      cases heq
      have := ih v p' hr
      rw [advanceN_current] at this
      omega
  | case4 pos value h hb ih =>
    intro v p' hr
    unfold scanString at hr
    rw [if_neg h, if_neg hb] at hr
    have := ih v p' hr
    rw [advance_current] at this
    omega

/-- The comment loop never moves backwards. -/
theorem scanComment_mono (src : List Char) (pos : Pos) (value : List Char) :
    pos.current ≤ (scanComment src pos value).2.current := by
  induction pos, value using scanComment.induct src with
  | case1 pos value h =>
    unfold scanComment
    rw [if_pos h]
  | case2 pos value h ih =>
    unfold scanComment
    rw [if_neg h]
    have := advance_current src pos
    omega

/-- On a character that is neither the end nor a newline the comment loop
strictly advances. -/
theorem scanComment_gt (src : List Char) (pos : Pos) (value : List Char)
    (h1 : ¬ (isEndOfFile (peek src pos.current) = true))
    (h2 : peek src pos.current ≠ '\n') :
    pos.current < (scanComment src pos value).2.current := by
  unfold scanComment
  rw [if_neg (by simp [h1, h2])]
  have ha := advance_current src pos
  have := scanComment_mono src (advance src pos)
    (value ++ [peek src pos.current])
  omega

/-- The identifier loop never moves backwards. -/
theorem scanIdent_mono (src : List Char) (pos : Pos) (value : List Char) :
    pos.current ≤ (scanIdent src pos value).2.current := by
  induction pos, value using scanIdent.induct src with
  | case1 pos value h =>
    unfold scanIdent
    rw [if_pos h]
  | case2 pos value h ih =>
    unfold scanIdent
    rw [if_neg h]
    have := advance_current src pos
    omega

/-- On an alphanumeric, non-end character the identifier loop strictly
advances. -/
theorem scanIdent_gt (src : List Char) (pos : Pos) (value : List Char)
    (h1 : ¬ (isEndOfFile (peek src pos.current) = true))
    (h2 : isAlphaNumeric (peek src pos.current) = true) :
    pos.current < (scanIdent src pos value).2.current := by
  unfold scanIdent
  rw [if_neg (by simp [h1, h2])]
  have ha := advance_current src pos
  have := scanIdent_mono src (advance src pos)
    (value ++ [peek src pos.current])
  omega

/-- A successful number scan never moves backwards. -/
theorem scanNumber_mono (src : List Char) (pos : Pos) (value : List Char) :
    ∀ v p', scanNumber src pos value = .ok v p' →
      pos.current ≤ p'.current := by
  induction pos, value using scanNumber.induct src with
  | case1 pos value h =>
    intro v p' hr
    unfold scanNumber at hr
    rw [if_pos h] at hr
    simp only [NumScan.ok.injEq] at hr
    obtain ⟨-, h2⟩ := hr
    subst h2
    exact Nat.le_refl _
  | case2 pos value h hdot =>
    intro v p' hr
    unfold scanNumber at hr
    rw [if_neg h, if_pos hdot] at hr
    simp at hr
  | case3 pos value h hdot ih =>
    intro v p' hr
    unfold scanNumber at hr
    rw [if_neg h, if_neg hdot] at hr
    have := ih v p' hr
    have ha := advance_current src pos
    omega

/-- A successful number scan started on a digit strictly advances. -/
theorem scanNumber_gt (src : List Char) (pos : Pos) (value : List Char)
    (h1 : ¬ (isEndOfFile (peek src pos.current) = true))
    (h2 : isDigit (peek src pos.current) = true) :
    ∀ v p', scanNumber src pos value = .ok v p' →
      pos.current < p'.current := by
  intro v p' hr
  unfold scanNumber at hr
  rw [if_neg (by simp [h1, h2])] at hr
  split_ifs at hr with hdot
  · have := scanNumber_mono src (advance src pos)
      (value ++ [peek src pos.current]) v p' hr
    have ha := advance_current src pos
    omega

/-- A token built with the default fields (used for every EOF token). -/
def mkToken (type : String) (value : List Char) (pos : Pos) : Token :=
  ⟨type, value, pos.line, pos.column, pos.current - value.length,
   pos.current⟩

/-- A token with explicit start and column; line and end default to the
current position. -/
def mkTokenAt (type : String) (value : List Char) (pos : Pos)
    (start column : Nat) : Token :=
  ⟨type, value, pos.line, column, start, pos.current⟩

/-- Modelled from the spec: tokens.ts is not under src/.  The single-char
entries of the tokenTypes map; the claims do not depend on the type
names. -/
def tokenTypes1 (c : Char) : String :=
  if c = '(' then "LPAREN"
  else if c = ')' then "RPAREN"
  else if c = ',' then "COMMA"
  else if c = '+' then "PLUS"
  else if c = '*' then "STAR"
  else if c = '^' then "CARET"
  else if c = '/' then "SLASH"
  else if c = '%' then "MOD"
  else if c = '>' then "GT"
  else if c = '<' then "LT"
  else if c = '~' then "NOT"
  else "UNKNOWN"

/-- Modelled from the spec: tokens.ts is not under src/.  The two-char
entries of the tokenTypes map. -/
def tokenTypes2 (s : String) : String :=
  if s = ">=" then "GE"
  else if s = "<=" then "LE"
  else if s = "~=" then "NE"
  else if s = ":=" then "ASSIGN"
  else if s = "==" then "EQ"
  else "UNKNOWN"

/-- Modelled from the spec: tokens.ts is not under src/.  The keyword map
of the Pinky language; the claims do not depend on its exact contents. -/
def keywordList : List (String × String) :=
  [("if", "IF"), ("then", "THEN"), ("else", "ELSE"), ("elif", "ELIF"),
   ("while", "WHILE"), ("do", "DO"), ("for", "FOR"), ("end", "END"),
   ("func", "FUNC"), ("ret", "RET"), ("print", "PRINT"),
   ("println", "PRINTLN"), ("true", "TRUE"), ("false", "FALSE"),
   ("nil", "NIL"), ("and", "AND"), ("or", "OR"), ("local", "LOCAL")]

/-- keywords lookup; a miss falls back to IDENTIFIER at the use site. -/
def keywords (value : List Char) : Option String :=
  (keywordList.find? (fun p => p.1 = String.mk value)).map (fun p => p.2)

/-- The main loop of tokenize (the while loop of the source), carrying the
accumulated token list.  Character-quoted error messages keep the message
text without the quoting.  The JS RangeError thrown by
String.fromCodePoint propagates out of tokenize, hence the outer
Except. -/
def tokLoop (src : List Char) (pos : Pos) (tokens : List Token) :
    Except String (List Token × Option TokenError) :=
  if isEndOfFile (peek src pos.current) then
    .ok (tokens ++ [mkToken "EOF" [] pos], none)
  else if peek src pos.current = ' ' ∨ peek src pos.current = '\t' ∨
          peek src pos.current = '\r' ∨ peek src pos.current = '\n' then
    tokLoop src (advance src pos) tokens
  else if peek src pos.current = '(' ∨ peek src pos.current = ')' ∨
          peek src pos.current = ',' ∨ peek src pos.current = '+' ∨
          peek src pos.current = '*' ∨ peek src pos.current = '^' ∨
          peek src pos.current = '/' ∨ peek src pos.current = '%' then
    tokLoop src (advance src pos)
      (tokens ++ [mkTokenAt (tokenTypes1 (peek src pos.current))
        [peek src pos.current] (advance src pos) pos.current pos.column])
  else if peek src pos.current = squote ∨ peek src pos.current = '"' then
    match hscan : scanString src (peek src pos.current)
        (advance src pos) [] with
    | .error m => .error m
    | .ok (value, pos2) =>
      if isEndOfFile (peek src pos2.current) then
        .ok (tokens ++ [mkToken "EOF" [] pos2],
             some ⟨"Unterminated string literal at line",
                   pos.line, pos.column⟩)
      else
        tokLoop src (advance src pos2)
          (tokens ++ [mkTokenAt "STRING" value (advance src pos2)
            pos.current pos.column])
  else if peek src pos.current = '>' ∨ peek src pos.current = '<' then
    if lookahead src pos.current 1 = '=' then
      tokLoop src (advance src (advance src pos))
        (tokens ++
         [mkTokenAt (tokenTypes2 (String.mk [peek src pos.current, '=']))
           [peek src pos.current, '=']
           (advance src (advance src pos)) pos.current pos.column])
    else
      tokLoop src (advance src pos)
        (tokens ++ [mkTokenAt (tokenTypes1 (peek src pos.current))
          [peek src pos.current] (advance src pos) pos.current pos.column])
  else if peek src pos.current = '~' ∨ peek src pos.current = ':' ∨
          peek src pos.current = '=' then
    if peek src pos.current = '~' ∧ lookahead src pos.current 1 ≠ '=' then
      tokLoop src (advance src pos)
        (tokens ++ [mkTokenAt (tokenTypes1 (peek src pos.current))
          [peek src pos.current] (advance src pos) pos.current pos.column])
    else if lookahead src pos.current 1 ≠ '=' then
      .ok (tokens ++ [mkToken "EOF" [] pos],
           some ⟨"Unexpected character " ++ String.mk [peek src pos.current],
                 pos.line, pos.column⟩)
    else
      tokLoop src (advance src (advance src pos))
        (tokens ++
         [mkTokenAt (tokenTypes2 (String.mk [peek src pos.current, '=']))
           [peek src pos.current, '=']
           (advance src (advance src pos)) pos.current pos.column])
  else if peek src pos.current = '-' then
    if lookahead src pos.current 1 ≠ '-' then
      tokLoop src (advance src pos)
        (tokens ++ [mkTokenAt "MINUS" [peek src pos.current]
          (advance src pos) pos.current pos.column])
    else
      tokLoop src (scanComment src pos []).2
        (tokens ++ [mkTokenAt "COMMENT" (scanComment src pos []).1
          (scanComment src pos []).2 pos.current pos.column])
  else if isDigit (peek src pos.current) then
    match hnum : scanNumber src pos [] with
    | .malformed p =>
      .ok (tokens ++ [mkToken "EOF" [] p],
           some ⟨"Unexpected character . in number", p.line, p.column⟩)
    | .ok value p =>
      tokLoop src p
        (tokens ++ [mkTokenAt "NUMBER" value p pos.current pos.column])
  else if isAlpha (peek src pos.current) then
    tokLoop src (scanIdent src pos []).2
      (tokens ++
       [mkTokenAt ((keywords (scanIdent src pos []).1).getD "IDENTIFIER")
         (scanIdent src pos []).1 (scanIdent src pos []).2
         pos.current pos.column])
  else
    .ok (tokens ++ [mkToken "EOF" [] pos],
         some ⟨"Unexpected character " ++ String.mk [peek src pos.current],
               pos.line, pos.column⟩)
termination_by src.length - pos.current
decreasing_by
  · -- whitespace
    have hpos : pos.current < src.length := by
      apply peek_lt
      simp only [isEndOfFile, decide_eq_true_eq] at *
      tauto
    rw [advance_current]
    omega
  · -- single-character tokens
    have hpos : pos.current < src.length := by
      apply peek_lt
      simp only [isEndOfFile, decide_eq_true_eq] at *
      tauto
    rw [advance_current]
    omega
  · -- closed string literal
    have hpos : pos.current < src.length := by
      apply peek_lt
      simp only [isEndOfFile, decide_eq_true_eq] at *
      tauto
    have h1 := scanString_mono src (peek src pos.current)
      (advance src pos) [] _ _ hscan
    have h2 := advance_current src pos
    have h3 := advance_current src pos2
    omega
  · -- two-character comparison
    have hpos : pos.current < src.length := by
      apply peek_lt
      simp only [isEndOfFile, decide_eq_true_eq] at *
      tauto
    have h1 := advance_current src pos
    have h2 := advance_current src (advance src pos)
    omega
  · -- single > or <
    have hpos : pos.current < src.length := by
      apply peek_lt
      simp only [isEndOfFile, decide_eq_true_eq] at *
      tauto
    rw [advance_current]
    omega
  · -- unary tilde
    have hpos : pos.current < src.length := by
      apply peek_lt
      simp only [isEndOfFile, decide_eq_true_eq] at *
      tauto
    rw [advance_current]
    omega
  · -- two-character operator
    have hpos : pos.current < src.length := by
      apply peek_lt
      simp only [isEndOfFile, decide_eq_true_eq] at *
      tauto
    have h1 := advance_current src pos
    have h2 := advance_current src (advance src pos)
    omega
  · -- minus
    have hpos : pos.current < src.length := by
      apply peek_lt
      simp only [isEndOfFile, decide_eq_true_eq] at *
      tauto
    rw [advance_current]
    omega
  · -- comment
    have hpos : pos.current < src.length := by
      apply peek_lt
      simp only [isEndOfFile, decide_eq_true_eq] at *
      tauto
    rename_i hne hminus
    have h1 : pos.current < (scanComment src pos []).2.current := by
      apply scanComment_gt
      · simp only [isEndOfFile] at *
        tauto
      · intro hnl
        exact absurd (hne.symm.trans hnl) (by decide)
    omega
  · -- number
    have hpos : pos.current < src.length := by
      apply peek_lt
      simp only [isEndOfFile, decide_eq_true_eq] at *
      tauto
    rename_i hdig
    have h1 : pos.current < p.current := by
      apply scanNumber_gt src pos [] _ hdig _ _ hnum
      simp only [isEndOfFile, decide_eq_true_eq] at *
      tauto
    omega
  · -- identifier or keyword
    have hpos : pos.current < src.length := by
      apply peek_lt
      simp only [isEndOfFile, decide_eq_true_eq] at *
      tauto
    rename_i halpha
    have h1 : pos.current < (scanIdent src pos []).2.current := by
      apply scanIdent_gt
      · simp only [isEndOfFile] at *
        tauto
      · simp only [isAlphaNumeric, halpha, Bool.true_or]
    omega

/-- tokenize from the source: run the loop from line 1, column 1. -/
def tokenize (src : List Char) :
    Except String (List Token × Option TokenError) :=
  tokLoop src ⟨1, 1, 0⟩ []

/-- A token list whose last element is an EOF token with an empty
value. -/
def EndsWithEOF (ts : List Token) : Prop :=
  ∃ t, ts.getLast? = some t ∧ t.type = "EOF" ∧ t.value = []

/-- Appending the default EOF token makes the list end with EOF. -/
theorem endsWithEOF_concat (ts : List Token) (p : Pos) :
    EndsWithEOF (ts ++ [mkToken "EOF" [] p]) :=
  ⟨mkToken "EOF" [] p, List.getLast?_concat _, rfl, rfl⟩

/-- Whenever the token loop returns (rather than propagating the
fromCodePoint RangeError), the token list it returns ends with an EOF
token — on the success path and on every error path. -/
theorem tokLoop_eof (src : List Char) : ∀ (pos : Pos)
    (tokens : List Token) (r : List Token × Option TokenError),
    tokLoop src pos tokens = .ok r → EndsWithEOF r.1 := by
  intro pos tokens
  induction pos, tokens using tokLoop.induct src with
  | case1 pos tokens h1 =>
    intro r hr
    unfold tokLoop at hr
    rw [if_pos h1] at hr
    cases Except.ok.inj hr
    exact endsWithEOF_concat _ _
  | case2 pos tokens h1 h2 ih =>
    intro r hr
    unfold tokLoop at hr
    rw [if_neg h1, if_pos h2] at hr
    exact ih r hr
  | case3 pos tokens h1 h2 h3 ih =>
    intro r hr
    unfold tokLoop at hr
    rw [if_neg h1, if_neg h2, if_pos h3] at hr
    exact ih r hr
  | case4 pos tokens h1 h2 h3 h4 m hscan =>
    intro r hr
    unfold tokLoop at hr
    rw [if_neg h1, if_neg h2, if_neg h3, if_pos h4] at hr
    split at hr
    · exact Except.noConfusion hr
    · rename_i v p2 heq
      rw [hscan] at heq
      simp at heq
  | case5 pos tokens h1 h2 h3 h4 value pos2 hscan h5 =>
    intro r hr
    unfold tokLoop at hr
    rw [if_neg h1, if_neg h2, if_neg h3, if_pos h4] at hr
    split at hr
    · rename_i m heq
      rw [hscan] at heq
      simp at heq
    · rename_i v p2 heq
      rw [hscan] at heq
      simp only [Except.ok.injEq, Prod.mk.injEq] at heq
      obtain ⟨hv, hp⟩ := heq
      subst hv
      subst hp
      rw [if_pos h5] at hr
      cases Except.ok.inj hr
      exact endsWithEOF_concat _ _
  | case6 pos tokens h1 h2 h3 h4 value pos2 hscan h5 ih =>
    intro r hr
    unfold tokLoop at hr
    rw [if_neg h1, if_neg h2, if_neg h3, if_pos h4] at hr
    split at hr
    · rename_i m heq
      rw [hscan] at heq
      simp at heq
    · rename_i v p2 heq
      rw [hscan] at heq
      simp only [Except.ok.injEq, Prod.mk.injEq] at heq
      obtain ⟨hv, hp⟩ := heq
      subst hv
      subst hp
      rw [if_neg h5] at hr
      exact ih r hr
  | case7 pos tokens h1 h2 h3 h4 h5 h6 ih =>
    intro r hr
    unfold tokLoop at hr
    rw [if_neg h1, if_neg h2, if_neg h3, if_neg h4, if_pos h5,
        if_pos h6] at hr
    exact ih r hr
  | case8 pos tokens h1 h2 h3 h4 h5 h6 ih =>
    intro r hr
    unfold tokLoop at hr
    rw [if_neg h1, if_neg h2, if_neg h3, if_neg h4, if_pos h5,
        if_neg h6] at hr
    exact ih r hr
  | case9 pos tokens h1 h2 h3 h4 h5 h6 h7 ih =>
    intro r hr
    unfold tokLoop at hr
    rw [if_neg h1, if_neg h2, if_neg h3, if_neg h4, if_neg h5, if_pos h6,
        if_pos h7] at hr
    exact ih r hr
  | case10 pos tokens h1 h2 h3 h4 h5 h6 h7 h8 =>
    intro r hr
    unfold tokLoop at hr
    rw [if_neg h1, if_neg h2, if_neg h3, if_neg h4, if_neg h5, if_pos h6,
        if_neg h7, if_pos h8] at hr
    cases Except.ok.inj hr
    exact endsWithEOF_concat _ _
  | case11 pos tokens h1 h2 h3 h4 h5 h6 h7 h8 ih =>
    intro r hr
    unfold tokLoop at hr
    rw [if_neg h1, if_neg h2, if_neg h3, if_neg h4, if_neg h5, if_pos h6,
        if_neg h7, if_neg h8] at hr
    exact ih r hr
  | case12 pos tokens h1 h2 h3 h4 h5 h6 h7 h8 ih =>
    intro r hr
    unfold tokLoop at hr
    rw [if_neg h1, if_neg h2, if_neg h3, if_neg h4, if_neg h5, if_neg h6,
        if_pos h7, if_pos h8] at hr
    exact ih r hr
  | case13 pos tokens h1 h2 h3 h4 h5 h6 h7 h8 ih =>
    intro r hr
    unfold tokLoop at hr
    rw [if_neg h1, if_neg h2, if_neg h3, if_neg h4, if_neg h5, if_neg h6,
        if_pos h7, if_neg h8] at hr
    exact ih r hr
  | case14 pos tokens h1 h2 h3 h4 h5 h6 h7 h8 p hnum =>
    intro r hr
    unfold tokLoop at hr
    rw [if_neg h1, if_neg h2, if_neg h3, if_neg h4, if_neg h5, if_neg h6,
        if_neg h7, if_pos h8] at hr
    split at hr
    · rename_i p2 heq
      rw [hnum] at heq
      simp only [NumScan.malformed.injEq] at heq
      subst heq
      cases Except.ok.inj hr
      exact endsWithEOF_concat _ _
    · rename_i v p2 heq
      rw [hnum] at heq
      simp at heq
  | case15 pos tokens h1 h2 h3 h4 h5 h6 h7 h8 value p hnum ih =>
    intro r hr
    unfold tokLoop at hr
    rw [if_neg h1, if_neg h2, if_neg h3, if_neg h4, if_neg h5, if_neg h6,
        if_neg h7, if_pos h8] at hr
    split at hr
    · rename_i p2 heq
      rw [hnum] at heq
      simp at heq
    · rename_i v p2 heq
      rw [hnum] at heq
      simp only [NumScan.ok.injEq] at heq
      obtain ⟨hv, hp⟩ := heq
      subst hv
      subst hp
      exact ih r hr
  | case16 pos tokens h1 h2 h3 h4 h5 h6 h7 h8 h9 ih =>
    intro r hr
    unfold tokLoop at hr
    rw [if_neg h1, if_neg h2, if_neg h3, if_neg h4, if_neg h5, if_neg h6,
        if_neg h7, if_neg h8, if_pos h9] at hr
    exact ih r hr
  | case17 pos tokens h1 h2 h3 h4 h5 h6 h7 h8 h9 =>
    intro r hr
    unfold tokLoop at hr
    rw [if_neg h1, if_neg h2, if_neg h3, if_neg h4, if_neg h5, if_neg h6,
        if_neg h7, if_neg h8, if_neg h9] at hr
    cases Except.ok.inj hr
    exact endsWithEOF_concat _ _

/-- The counterexample source for C10: a string literal containing the
braced unicode escape of code point 0x110000. -/
def cexSrc : List Char :=
  ['"', bslash, 'u', '\x7b', '1', '1', '0', '0', '0', '0', '\x7d', '"']

theorem cex_hex10 : scanHexBrace cexSrc 10 = ([], 10) := by
  unfold scanHexBrace
  decide

theorem cex_hex9 : scanHexBrace cexSrc 9 = (['0'], 10) := by
  unfold scanHexBrace
  rw [cex_hex10]
  decide

theorem cex_hex4 :
    scanHexBrace cexSrc 4 = (['1', '1', '0', '0', '0', '0'], 10) := by
  unfold scanHexBrace
  rw [show scanHexBrace cexSrc 5 = (['1', '0', '0', '0', '0'], 10) from by
    unfold scanHexBrace
    rw [show scanHexBrace cexSrc 6 = (['0', '0', '0', '0'], 10) from by
      unfold scanHexBrace
      rw [show scanHexBrace cexSrc 7 = (['0', '0', '0'], 10) from by
        unfold scanHexBrace
        rw [show scanHexBrace cexSrc 8 = (['0', '0'], 10) from by
          unfold scanHexBrace
          rw [cex_hex9]
          decide]
        decide]
      decide]
    decide]
  decide

theorem cex_decode : decodeStringLiteralSegment cexSrc 1 =
    .error "RangeError: Invalid code point" := by
  unfold decodeStringLiteralSegment
  simp only [Nat.reduceAdd]
  rw [cex_hex4]
  decide

theorem cex_scanString : scanString cexSrc '"' ⟨1, 2, 1⟩ [] =
    .error "RangeError: Invalid code point" := by
  unfold scanString
  simp only [show Pos.current ⟨1, 2, 1⟩ = 1 from rfl]
  rw [cex_decode]
  decide

/-- C10 counterexample: on the 12-character source consisting of a braced
unicode escape denoting code point 0x110000 inside a string literal,
tokenize does not return a token list at all — the String.fromCodePoint
RangeError propagates out — refuting the claim that every input source
string yields an EOF-terminated token list. -/
theorem c10_counterexample :
    tokenize cexSrc = .error "RangeError: Invalid code point" := by
  have cex2 : scanString cexSrc
      (peek cexSrc (Pos.mk 1 1 0).current)
      (advance cexSrc (Pos.mk 1 1 0)) [] =
      .error "RangeError: Invalid code point" := cex_scanString
  unfold tokenize tokLoop
  rw [if_neg (by decide), if_neg (by decide), if_neg (by decide),
      if_pos (by decide)]
  split
  · rename_i heq
    rw [cex2] at heq
    injection heq with h
    subst h
    rfl
  · rename_i heq
    rw [cex2] at heq
    simp at heq

/-- C10 (amended): whenever tokenize returns — on the success path and on
every TokenError path, including an unterminated string literal, an
unexpected character and a malformed number — the returned token list is
non-empty and its last element is an EOF token (type "EOF", empty
value). -/
theorem c10_eof_terminated (src : List Char)
    (r : List Token × Option TokenError) (h : tokenize src = .ok r) :
    r.1 ≠ [] ∧
    ∃ t, r.1.getLast? = some t ∧ t.type = "EOF" ∧ t.value = [] := by
  obtain ⟨t, hl, ht, hv⟩ := tokLoop_eof src ⟨1, 1, 0⟩ [] r h
  refine ⟨?_, t, hl, ht, hv⟩
  intro hnil
  rw [hnil] at hl
  simp at hl

/-- C10 witness: the EOF-termination fact evaluated on the empty
source. -/
theorem c10_witness :
    ∃ r, tokenize [] = .ok r ∧ r.1 ≠ [] ∧
      ∃ t, r.1.getLast? = some t ∧ t.type = "EOF" ∧ t.value = [] := by
  have h : tokenize [] = .ok ([⟨"EOF", [], 1, 1, 0, 0⟩], none) := by
    simp [tokenize, tokLoop, peek, isEndOfFile, nul, mkToken]
  exact ⟨_, h, c10_eof_terminated [] _ h⟩

end PinkyLexer

namespace PinkyC

/- ===== Evaluation lemmas for the compilation monad. -/

theorem CompileM.bind_ok {α β : Type} {m : CompileM α} {s s1 : CState}
    {a : α} (f : α → CompileM β) (h : m s = (.ok a, s1)) :
    (CompileM.bind m f) s = f a s1 := by
  unfold CompileM.bind
  rw [h]

theorem CompileM.bind_err {α β : Type} {m : CompileM α} {s s1 : CState}
    {e : CErr} (f : α → CompileM β) (h : m s = (.error e, s1)) :
    (CompileM.bind m f) s = (.error e, s1) := by
  unfold CompileM.bind
  rw [h]

theorem CompileM.ret_apply {α : Type} (a : α) (s : CState) :
    (CompileM.ret a) s = (.ok a, s) := rfl

theorem CompileM.bind_ret {α β : Type} (a : α) (f : α → CompileM β)
    (s : CState) :
    (CompileM.bind (CompileM.ret a) f) s = f a s := rfl

theorem CompileM.upd_apply {α : Type} (f : CState → CState)
    (k : CompileM α) (s : CState) :
    (CompileM.upd f k) s = k (f s) := rfl

theorem CompileM.get_apply {α : Type} (k : CState → CompileM α)
    (s : CState) :
    (CompileM.get k) s = k s s := rfl

theorem CompileM.scratch_apply {α : Type} (k : Nat → CompileM α)
    (s : CState) :
    (CompileM.scratch k) s =
      k s.localVarsIndex { s with localVarsIndex := s.localVarsIndex + 1 } :=
  rfl

theorem CompileM.declare_apply {α : Type} (name : String) (isLocal : Bool)
    (k : Option Nat → CompileM α) (s : CState) :
    (CompileM.declare name isLocal k) s =
      k (declareVarS name isLocal s).1 (declareVarS name isLocal s).2 :=
  rfl

/-- C4: the lowering of a binary `+` dispatches at run time among exactly
three branches: a string test (is_string on the left OR-ed with is_string
on the right) selecting concat; otherwise a boolean test (is_bool on
either side) selecting to_number coercion of both operands, unboxing,
f64.add and re-boxing as a number; otherwise plain unboxing of both
operands, f64.add and re-boxing as a number. -/
theorem c4_plus_three_way_dispatch (l r : Expression) (loc : Loc)
    (s s1 s2 : CState) (lb rb : List Byte)
    (hl : compileExpression l s = (.ok lb, s1))
    (hr : compileExpression r s1 = (.ok rb, s2)) :
    compileExpression (.binary "+" l r loc) s =
      (.ok (lb ++ callOp (fnIdx "is_string") ++
            rb ++ callOp (fnIdx "is_string") ++ i32Or ++
            ifStartI32 ++
              lb ++ rb ++ callOp (fnIdx "concat") ++
            ifElse ++
              lb ++ callOp (fnIdx "is_bool") ++
              rb ++ callOp (fnIdx "is_bool") ++ i32Or ++
              ifStartI32 ++
                lb ++ callOp (fnIdx "to_number") ++
                callOp (fnIdx "unbox_number") ++
                rb ++ callOp (fnIdx "to_number") ++
                callOp (fnIdx "unbox_number") ++
                f64Add ++ callOp (fnIdx "box_number") ++
              ifElse ++
                lb ++ callOp (fnIdx "unbox_number") ++
                rb ++ callOp (fnIdx "unbox_number") ++
                f64Add ++ callOp (fnIdx "box_number") ++
              ifEnd ++
            ifEnd), s2) := by
  simp only [compileExpression]
  rw [CompileM.bind_ok _ hl]
  beta_reduce
  rw [CompileM.bind_ok _ hr]
  rfl

/-- C4 witness: the dispatch pattern at a concrete number + boolean. -/
theorem c4_witness :
    compileExpression
      (.binary "+" (.numberLit oneBits ⟨1, 9⟩) (.boolLit true ⟨1, 13⟩)
        ⟨1, 9⟩) (initState rtStub) =
      (.ok ((f64Const oneBits ++ callOp (fnIdx "box_number")) ++
            callOp (fnIdx "is_string") ++
            (i32Const 1 ++ callOp (fnIdx "box_bool")) ++
            callOp (fnIdx "is_string") ++ i32Or ++
            ifStartI32 ++
              (f64Const oneBits ++ callOp (fnIdx "box_number")) ++
              (i32Const 1 ++ callOp (fnIdx "box_bool")) ++
              callOp (fnIdx "concat") ++
            ifElse ++
              (f64Const oneBits ++ callOp (fnIdx "box_number")) ++
              callOp (fnIdx "is_bool") ++
              (i32Const 1 ++ callOp (fnIdx "box_bool")) ++
              callOp (fnIdx "is_bool") ++ i32Or ++
              ifStartI32 ++
                (f64Const oneBits ++ callOp (fnIdx "box_number")) ++
                callOp (fnIdx "to_number") ++
                callOp (fnIdx "unbox_number") ++
                (i32Const 1 ++ callOp (fnIdx "box_bool")) ++
                callOp (fnIdx "to_number") ++
                callOp (fnIdx "unbox_number") ++
                f64Add ++ callOp (fnIdx "box_number") ++
              ifElse ++
                (f64Const oneBits ++ callOp (fnIdx "box_number")) ++
                callOp (fnIdx "unbox_number") ++
                (i32Const 1 ++ callOp (fnIdx "box_bool")) ++
                callOp (fnIdx "unbox_number") ++
                f64Add ++ callOp (fnIdx "box_number") ++
              ifEnd ++
            ifEnd), initState rtStub) :=
  c4_plus_three_way_dispatch _ _ _ _ _ _ _ _ rfl rfl

/-- C5: for `and` and `or` the emitted code stores the left operand once
into a freshly consumed scratch slot and guards the right operand with
is_truthy of that slot: for `and` the right operand sits in the then arm
(evaluated exactly when the left is truthy) and the stored left value in
the else arm; for `or` the stored left value sits in the then arm and the
right operand in the else arm (evaluated exactly when the left is not
truthy). -/
theorem c5_and_or_short_circuit :
    (∀ (l r : Expression) (loc : Loc) (s s1 s2 : CState) (lb rb : List Byte),
      compileExpression l s = (.ok lb, s1) →
      compileExpression r s1 = (.ok rb, s2) →
      compileExpression (.binary "and" l r loc) s =
        (.ok (lb ++ localSet s2.localVarsIndex ++
              localGet s2.localVarsIndex ++ callOp (fnIdx "is_truthy") ++
              ifStartI32 ++ rb ++
              ifElse ++ localGet s2.localVarsIndex ++
              ifEnd),
         { s2 with localVarsIndex := s2.localVarsIndex + 1 })) ∧
    (∀ (l r : Expression) (loc : Loc) (s s1 s2 : CState) (lb rb : List Byte),
      compileExpression l s = (.ok lb, s1) →
      compileExpression r s1 = (.ok rb, s2) →
      compileExpression (.binary "or" l r loc) s =
        (.ok (lb ++ localSet s2.localVarsIndex ++
              localGet s2.localVarsIndex ++ callOp (fnIdx "is_truthy") ++
              ifStartI32 ++ localGet s2.localVarsIndex ++
              ifElse ++ rb ++
              ifEnd),
         { s2 with localVarsIndex := s2.localVarsIndex + 1 })) := by
  constructor
  · intro l r loc s s1 s2 lb rb hl hr
    simp only [compileExpression]
    rw [CompileM.bind_ok _ hl]
    beta_reduce
    rw [CompileM.bind_ok _ hr]
    rfl
  · intro l r loc s s1 s2 lb rb hl hr
    simp only [compileExpression]
    rw [CompileM.bind_ok _ hl]
    beta_reduce
    rw [CompileM.bind_ok _ hr]
    rfl

/-- C5 witness: both short-circuit patterns at concrete booleans, with the
scratch slot being slot 0 of the fresh state. -/
theorem c5_witness :
    (compileExpression
       (.binary "and" (.boolLit true ⟨1, 1⟩) (.boolLit false ⟨1, 10⟩)
         ⟨1, 1⟩) (initState rtStub) =
      (.ok ((i32Const 1 ++ callOp (fnIdx "box_bool")) ++ localSet 0 ++
            localGet 0 ++ callOp (fnIdx "is_truthy") ++
            ifStartI32 ++ (i32Const 0 ++ callOp (fnIdx "box_bool")) ++
            ifElse ++ localGet 0 ++
            ifEnd),
       { initState rtStub with localVarsIndex := 1 })) ∧
    (compileExpression
       (.binary "or" (.boolLit true ⟨1, 1⟩) (.boolLit false ⟨1, 9⟩)
         ⟨1, 1⟩) (initState rtStub) =
      (.ok ((i32Const 1 ++ callOp (fnIdx "box_bool")) ++ localSet 0 ++
            localGet 0 ++ callOp (fnIdx "is_truthy") ++
            ifStartI32 ++ localGet 0 ++
            ifElse ++ (i32Const 0 ++ callOp (fnIdx "box_bool")) ++
            ifEnd),
       { initState rtStub with localVarsIndex := 1 })) :=
  ⟨c5_and_or_short_circuit.1 (.boolLit true ⟨1, 1⟩) (.boolLit false ⟨1, 10⟩)
     ⟨1, 1⟩ (initState rtStub) (initState rtStub) (initState rtStub)
     (i32Const 1 ++ callOp (fnIdx "box_bool"))
     (i32Const 0 ++ callOp (fnIdx "box_bool")) rfl rfl,
   c5_and_or_short_circuit.2 (.boolLit true ⟨1, 1⟩) (.boolLit false ⟨1, 9⟩)
     ⟨1, 1⟩ (initState rtStub) (initState rtStub) (initState rtStub)
     (i32Const 1 ++ callOp (fnIdx "box_bool"))
     (i32Const 0 ++ callOp (fnIdx "box_bool")) rfl rfl⟩

/-- The guard emitted at the head of each iteration of every while and for
loop: compare the scratch counter with MAX_ITERATIONS, execute unreachable
once it is reached, then increment the counter. -/
def iterationGuard (counterIndex : Nat) : List Byte :=
  localGet counterIndex ++ i32Const (MAX_ITERATIONS : Nat) ++ i32GeU ++
  ifStart ++ unreachableOp ++ ifEnd ++
  localGet counterIndex ++ i32Const 1 ++ i32Add ++ localSet counterIndex

/-- The byte sequence a numeric for statement lowers to, in terms of the
compiled initialiser ib, stop expression cb, step expression sb and body
bb. -/
def forPattern (loopVar isDescending counterIndex : Nat)
    (ib cb sb bb : List Byte) : List Byte :=
  i32Const 0 ++ localSet counterIndex ++
  ib ++
  sb ++ callOp (fnIdx "unbox_number") ++ f64Const zeroBits ++ f64Lt ++
  localSet isDescending ++
  blockStart ++ loopStart ++
  iterationGuard counterIndex ++
  localGet isDescending ++
  ifStartI32 ++
    localGet loopVar ++ callOp (fnIdx "unbox_number") ++
    cb ++ callOp (fnIdx "unbox_number") ++ f64Lt ++
  ifElse ++
    localGet loopVar ++ callOp (fnIdx "unbox_number") ++
    cb ++ callOp (fnIdx "unbox_number") ++ f64Gt ++
  ifEnd ++
  brIfOp 1 ++
  bb ++
  localGet loopVar ++ callOp (fnIdx "unbox_number") ++
  sb ++ callOp (fnIdx "unbox_number") ++ f64Add ++
  callOp (fnIdx "box_number") ++ localSet loopVar ++
  brOp 0 ++ endOp ++ endOp

/-- How many times the body of a loop compiled with iterationGuard can
execute: the counter starts at `counter`; each pass first traps (body not
reached) once the counter has reached MAX_ITERATIONS, otherwise increments
it and runs the body when the condition of pass n holds. -/
def loopBodyCount (cond : Nat → Bool) (counter : Nat) : Nat :=
  if MAX_ITERATIONS ≤ counter then 0
  else if cond counter then 1 + loopBodyCount cond (counter + 1)
  else 0
termination_by MAX_ITERATIONS - counter
decreasing_by omega

/-- The guarded loop executes its body at most MAX_ITERATIONS - c more
times from counter value c. -/
theorem loopBodyCount_le (cond : Nat → Bool) (c : Nat) :
    loopBodyCount cond c ≤ MAX_ITERATIONS - c := by
  induction c using loopBodyCount.induct cond with
  | case1 c h =>
    unfold loopBodyCount
    rw [if_pos h]
    omega
  | case2 c h hc ih =>
    unfold loopBodyCount
    rw [if_neg h, if_pos hc]
    omega
  | case3 c h hc =>
    unfold loopBodyCount
    rw [if_neg h, if_neg hc]
    omega

/-- C3: every while loop and every numeric for loop - with an explicit
step expression or with the step absent and defaulting to boxed 1.0 -
initialises a fresh scratch counter to 0 and runs iterationGuard (compare
against MAX_ITERATIONS = 10000, unreachable on reaching it, increment) at
the head of each iteration; consequently the guarded loop body can execute
at most 10000 times. -/
theorem c3_loop_iteration_cap :
    MAX_ITERATIONS = 10000 ∧
    (∀ (cond : Expression) (body : List Statement) (s s1 s2 : CState)
       (bb cb : List Byte),
      compileStatements body (pushScope (pushScope s)) = (.ok bb, s1) →
      compileExpression cond (popScope s1) = (.ok cb, s2) →
      compileStatement (.whileStmt cond body) s =
        (.ok (i32Const 0 ++ localSet s2.localVarsIndex ++
              blockStart ++ loopStart ++
              iterationGuard s2.localVarsIndex ++
              cb ++ callOp (fnIdx "is_truthy") ++ i32Eqz ++ brIfOp 1 ++
              bb ++ brOp 0 ++ endOp ++ endOp),
         { s2 with scopes := s2.scopes.tail,
                   localVarsIndex := s2.localVarsIndex + 1 })) ∧
    (∀ (isLocal : Bool) (aid : Ident) (ae cond ie : Expression)
       (body : List Statement) (s s1 s2 s3 s4 : CState)
       (ib cb sb bb : List Byte) (loopVar : Nat),
      compileStatement (.assign isLocal aid ae) (pushScope s) =
        (.ok ib, s1) →
      getVarS s1 aid.name = some loopVar →
      compileExpression cond (pushScope s1) = (.ok cb, s2) →
      compileExpression ie s2 = (.ok sb, s3) →
      compileStatements body s3 = (.ok bb, s4) →
      compileStatement
          (.forStmt (.assign isLocal aid ae) cond (some ie) body) s =
        (.ok (forPattern loopVar s4.localVarsIndex
                (s4.localVarsIndex + 1) ib cb sb bb),
         { s4 with scopes := s4.scopes.tail.tail,
                   localVarsIndex := s4.localVarsIndex + 2 })) ∧
    (∀ (isLocal : Bool) (aid : Ident) (ae cond : Expression)
       (body : List Statement) (s s1 s2 s4 : CState)
       (ib cb bb : List Byte) (loopVar : Nat),
      compileStatement (.assign isLocal aid ae) (pushScope s) =
        (.ok ib, s1) →
      getVarS s1 aid.name = some loopVar →
      compileExpression cond (pushScope s1) = (.ok cb, s2) →
      compileStatements body s2 = (.ok bb, s4) →
      compileStatement
          (.forStmt (.assign isLocal aid ae) cond none body) s =
        (.ok (forPattern loopVar s4.localVarsIndex
                (s4.localVarsIndex + 1) ib cb
                (f64Const oneBits ++ callOp (fnIdx "box_number")) bb),
         { s4 with scopes := s4.scopes.tail.tail,
                   localVarsIndex := s4.localVarsIndex + 2 })) ∧
    (∀ cond : Nat → Bool, loopBodyCount cond 0 ≤ 10000) := by
  refine ⟨rfl, ?_, ?_, ?_, ?_⟩
  · intro cond body s s1 s2 bb cb hb hc
    simp only [compileStatement, CompileM.upd_apply, CompileM.bind_ok _ hb,
      CompileM.bind_ok _ hc, CompileM.scratch_apply, CompileM.ret_apply,
      iterationGuard]
    simp [popScope, List.append_assoc]
  · intro isLocal aid ae cond ie body s s1 s2 s3 s4 ib cb sb bb loopVar
      hi hv hc hs hb
    generalize ha : Statement.assign isLocal aid ae = a at hi ⊢
    simp only [compileStatement, CompileM.upd_apply, CompileM.bind_ok _ hi,
      CompileM.get_apply]
    rw [← ha]
    simp only [hv, CompileM.upd_apply, CompileM.bind_ok _ hc,
      CompileM.bind_ok _ hs, CompileM.bind_ok _ hb, CompileM.scratch_apply,
      CompileM.ret_apply, forPattern, iterationGuard]
    simp [popScope, List.append_assoc]
  · intro isLocal aid ae cond body s s1 s2 s4 ib cb bb loopVar
      hi hv hc hb
    generalize ha : Statement.assign isLocal aid ae = a at hi ⊢
    simp only [compileStatement, CompileM.upd_apply, CompileM.bind_ok _ hi,
      CompileM.get_apply]
    rw [← ha]
    simp only [hv, CompileM.upd_apply, CompileM.bind_ok _ hc,
      CompileM.bind_ret, CompileM.ret_apply, CompileM.bind_ok _ hb,
      CompileM.scratch_apply, forPattern, iterationGuard]
    simp [popScope, List.append_assoc]
  · intro cond
    have := loopBodyCount_le cond 0
    simpa [MAX_ITERATIONS] using this

/-- C3 witness: the capped patterns at a concrete while loop, a concrete
for loop with an explicit step, a concrete for loop with the step absent,
and an always-true loop condition. -/
theorem c3_witness :
    (compileStatement (.whileStmt (.boolLit true ⟨1, 7⟩) [])
        (initState rtStub) =
      (.ok (i32Const 0 ++ localSet 0 ++ blockStart ++ loopStart ++
            iterationGuard 0 ++
            (i32Const 1 ++ callOp (fnIdx "box_bool")) ++
            callOp (fnIdx "is_truthy") ++ i32Eqz ++ brIfOp 1 ++
            [] ++ brOp 0 ++ endOp ++ endOp),
       { initState rtStub with localVarsIndex := 1 })) ∧
    (compileStatement
        (.forStmt (.assign false ⟨"i", ⟨1, 5⟩⟩ (.numberLit oneBits ⟨1, 10⟩))
          (.numberLit oneBits ⟨1, 13⟩) (some (.numberLit oneBits ⟨1, 16⟩))
          []) (initState rtStub) =
      (.ok (forPattern 0 1 2
              (f64Const oneBits ++ callOp (fnIdx "box_number") ++ localSet 0)
              (f64Const oneBits ++ callOp (fnIdx "box_number"))
              (f64Const oneBits ++ callOp (fnIdx "box_number"))
              []),
       { initState rtStub with localVarsIndex := 3 })) ∧
    (compileStatement
        (.forStmt (.assign false ⟨"i", ⟨1, 5⟩⟩ (.numberLit oneBits ⟨1, 10⟩))
          (.numberLit oneBits ⟨1, 13⟩) none []) (initState rtStub) =
      (.ok (forPattern 0 1 2
              (f64Const oneBits ++ callOp (fnIdx "box_number") ++ localSet 0)
              (f64Const oneBits ++ callOp (fnIdx "box_number"))
              (f64Const oneBits ++ callOp (fnIdx "box_number"))
              []),
       { initState rtStub with localVarsIndex := 3 })) ∧
    loopBodyCount (fun _ => true) 0 ≤ 10000 :=
  ⟨c3_loop_iteration_cap.2.1 (.boolLit true ⟨1, 7⟩) [] (initState rtStub)
     (pushScope (pushScope (initState rtStub)))
     (popScope (pushScope (pushScope (initState rtStub)))) [] _ rfl rfl,
   c3_loop_iteration_cap.2.2.1 false ⟨"i", ⟨1, 5⟩⟩
     (.numberLit oneBits ⟨1, 10⟩) (.numberLit oneBits ⟨1, 13⟩)
     (.numberLit oneBits ⟨1, 16⟩) []
     (initState rtStub)
     { initState rtStub with localVarsIndex := 1,
                             scopes := [[("i", 0)], []] }
     { initState rtStub with localVarsIndex := 1,
                             scopes := [[], [("i", 0)], []] }
     { initState rtStub with localVarsIndex := 1,
                             scopes := [[], [("i", 0)], []] }
     { initState rtStub with localVarsIndex := 1,
                             scopes := [[], [("i", 0)], []] }
     (f64Const oneBits ++ callOp (fnIdx "box_number") ++ localSet 0)
     (f64Const oneBits ++ callOp (fnIdx "box_number"))
     (f64Const oneBits ++ callOp (fnIdx "box_number")) [] 0
     rfl rfl rfl rfl rfl,
   c3_loop_iteration_cap.2.2.2.1 false ⟨"i", ⟨1, 5⟩⟩
     (.numberLit oneBits ⟨1, 10⟩) (.numberLit oneBits ⟨1, 13⟩) []
     (initState rtStub)
     { initState rtStub with localVarsIndex := 1,
                             scopes := [[("i", 0)], []] }
     { initState rtStub with localVarsIndex := 1,
                             scopes := [[], [("i", 0)], []] }
     { initState rtStub with localVarsIndex := 1,
                             scopes := [[], [("i", 0)], []] }
     (f64Const oneBits ++ callOp (fnIdx "box_number") ++ localSet 0)
     (f64Const oneBits ++ callOp (fnIdx "box_number")) [] 0
     rfl rfl rfl rfl,
   c3_loop_iteration_cap.2.2.2.2 (fun _ => true)⟩

/-- C6: a numeric for statement computes is_descending = (step < 0) once,
before the loop is entered (step bytes, unbox_number, f64.const 0, f64.lt,
stored into a scratch slot ahead of the block/loop header); each iteration
evaluates loop-variable < stop (f64.lt) in the descending arm and
loop-variable > stop (f64.gt) in the ascending arm of an if over
is_descending, and br_if 1 exits the loop when the selected comparison
yields 1; when the step expression is absent the step bytes default to
f64.const 1.0 boxed with box_number. -/
theorem c6_for_direction_and_default_step :
    (∀ (isLocal : Bool) (aid : Ident) (ae cond ie : Expression)
       (body : List Statement) (s s1 s2 s3 s4 : CState)
       (ib cb sb bb : List Byte) (loopVar : Nat),
      compileStatement (.assign isLocal aid ae) (pushScope s) =
        (.ok ib, s1) →
      getVarS s1 aid.name = some loopVar →
      compileExpression cond (pushScope s1) = (.ok cb, s2) →
      compileExpression ie s2 = (.ok sb, s3) →
      compileStatements body s3 = (.ok bb, s4) →
      compileStatement
          (.forStmt (.assign isLocal aid ae) cond (some ie) body) s =
        (.ok (forPattern loopVar s4.localVarsIndex
                (s4.localVarsIndex + 1) ib cb sb bb),
         { s4 with scopes := s4.scopes.tail.tail,
                   localVarsIndex := s4.localVarsIndex + 2 })) ∧
    (∀ (isLocal : Bool) (aid : Ident) (ae cond : Expression)
       (body : List Statement) (s s1 s2 s4 : CState)
       (ib cb bb : List Byte) (loopVar : Nat),
      compileStatement (.assign isLocal aid ae) (pushScope s) =
        (.ok ib, s1) →
      getVarS s1 aid.name = some loopVar →
      compileExpression cond (pushScope s1) = (.ok cb, s2) →
      compileStatements body s2 = (.ok bb, s4) →
      compileStatement
          (.forStmt (.assign isLocal aid ae) cond none body) s =
        (.ok (forPattern loopVar s4.localVarsIndex
                (s4.localVarsIndex + 1) ib cb
                (f64Const oneBits ++ callOp (fnIdx "box_number")) bb),
         { s4 with scopes := s4.scopes.tail.tail,
                   localVarsIndex := s4.localVarsIndex + 2 })) := by
  constructor
  · intro isLocal aid ae cond ie body s s1 s2 s3 s4 ib cb sb bb loopVar
      hi hv hc hs hb
    generalize ha : Statement.assign isLocal aid ae = a at hi ⊢
    simp only [compileStatement, CompileM.upd_apply, CompileM.bind_ok _ hi,
      CompileM.get_apply]
    rw [← ha]
    simp only [hv, CompileM.upd_apply, CompileM.bind_ok _ hc,
      CompileM.bind_ok _ hs, CompileM.bind_ok _ hb, CompileM.scratch_apply,
      CompileM.ret_apply, forPattern, iterationGuard]
    simp [popScope, List.append_assoc]
  · intro isLocal aid ae cond body s s1 s2 s4 ib cb bb loopVar
      hi hv hc hb
    generalize ha : Statement.assign isLocal aid ae = a at hi ⊢
    simp only [compileStatement, CompileM.upd_apply, CompileM.bind_ok _ hi,
      CompileM.get_apply]
    rw [← ha]
    simp only [hv, CompileM.upd_apply, CompileM.bind_ok _ hc,
      CompileM.bind_ret, CompileM.ret_apply, CompileM.bind_ok _ hb,
      CompileM.scratch_apply, forPattern, iterationGuard]
    simp [popScope, List.append_assoc]

/-- C6 witness: the for pattern with an explicit negative step and with an
absent step defaulting to boxed 1.0. -/
theorem c6_witness :
    (compileStatement
        (.forStmt (.assign false ⟨"j", ⟨2, 5⟩⟩ (.numberLit oneBits ⟨2, 10⟩))
          (.numberLit oneBits ⟨2, 13⟩)
          (some (.numberLit (negBits oneBits) ⟨2, 16⟩)) [])
        (initState rtStub) =
      (.ok (forPattern 0 1 2
              (f64Const oneBits ++ callOp (fnIdx "box_number") ++ localSet 0)
              (f64Const oneBits ++ callOp (fnIdx "box_number"))
              (f64Const (negBits oneBits) ++ callOp (fnIdx "box_number"))
              []),
       { initState rtStub with localVarsIndex := 3 })) ∧
    (compileStatement
        (.forStmt (.assign false ⟨"j", ⟨2, 5⟩⟩ (.numberLit oneBits ⟨2, 10⟩))
          (.numberLit oneBits ⟨2, 13⟩) none [])
        (initState rtStub) =
      (.ok (forPattern 0 1 2
              (f64Const oneBits ++ callOp (fnIdx "box_number") ++ localSet 0)
              (f64Const oneBits ++ callOp (fnIdx "box_number"))
              (f64Const oneBits ++ callOp (fnIdx "box_number"))
              []),
       { initState rtStub with localVarsIndex := 3 })) :=
  ⟨c6_for_direction_and_default_step.1 false ⟨"j", ⟨2, 5⟩⟩
     (.numberLit oneBits ⟨2, 10⟩) (.numberLit oneBits ⟨2, 13⟩)
     (.numberLit (negBits oneBits) ⟨2, 16⟩) []
     (initState rtStub)
     { initState rtStub with localVarsIndex := 1,
                             scopes := [[("j", 0)], []] }
     { initState rtStub with localVarsIndex := 1,
                             scopes := [[], [("j", 0)], []] }
     { initState rtStub with localVarsIndex := 1,
                             scopes := [[], [("j", 0)], []] }
     { initState rtStub with localVarsIndex := 1,
                             scopes := [[], [("j", 0)], []] }
     (f64Const oneBits ++ callOp (fnIdx "box_number") ++ localSet 0)
     (f64Const oneBits ++ callOp (fnIdx "box_number"))
     (f64Const (negBits oneBits) ++ callOp (fnIdx "box_number")) [] 0
     rfl rfl rfl rfl rfl,
   c6_for_direction_and_default_step.2 false ⟨"j", ⟨2, 5⟩⟩
     (.numberLit oneBits ⟨2, 10⟩) (.numberLit oneBits ⟨2, 13⟩) []
     (initState rtStub)
     { initState rtStub with localVarsIndex := 1,
                             scopes := [[("j", 0)], []] }
     { initState rtStub with localVarsIndex := 1,
                             scopes := [[], [("j", 0)], []] }
     { initState rtStub with localVarsIndex := 1,
                             scopes := [[], [("j", 0)], []] }
     (f64Const oneBits ++ callOp (fnIdx "box_number") ++ localSet 0)
     (f64Const oneBits ++ callOp (fnIdx "box_number")) [] 0
     rfl rfl rfl rfl⟩

/-- The specified nesting of compiled elif branches: the branches are
processed right to left from the accumulated original else block, and each
branch wraps the chain built so far as
condition; is_truthy; if; body (compiled in a fresh scope); else; inner;
end — so every elif lives in the else arm of its predecessor and the
original else block ends up in the else arm of the last (innermost)
elif. -/
inductive ElifChain :
    List (Expression × List Statement) → CState → List Byte →
    CState → List Byte → Prop where
  | nil (s : CState) (acc : List Byte) : ElifChain [] s acc s acc
  | cons (c : Expression) (body : List Statement)
      (rest : List (Expression × List Statement))
      (s : CState) (acc : List Byte) (s1 s2 s3 : CState)
      (inner cb eb : List Byte) :
      ElifChain rest s acc s1 inner →
      compileExpression c s1 = (.ok cb, s2) →
      compileStatements body (pushScope s2) = (.ok eb, s3) →
      ElifChain ((c, body) :: rest) s acc (popScope s3)
        (cb ++ callOp (fnIdx "is_truthy") ++ ifStart ++ eb ++
         ifElse ++ inner ++ ifEnd)

/-- The elif loop of the compiler realises exactly the specified chain. -/
theorem goElifs_agree (elifs : List (Expression × List Statement))
    (s s' : CState) (acc out : List Byte)
    (h : ElifChain elifs s acc s' out) :
    goElifs elifs acc s = (.ok out, s') := by
  induction h with
  | nil s acc => rfl
  | cons c body rest s acc s1 s2 s3 inner cb eb hrest hc hb ih =>
    simp only [goElifs, CompileM.bind_ok _ ih, CompileM.bind_ok _ hc,
      CompileM.upd_apply, CompileM.bind_ok _ hb, CompileM.ret_apply]

/-- C7: an if statement with elif branches compiles to the condition,
is_truthy, an if whose then arm is the then branch compiled in a fresh
scope, and whose else arm is the right-to-left nested elif chain with the
original else block (compiled in a fresh scope) in the innermost else
arm. -/
theorem c7_elif_nesting (cond : Expression) (thenB : List Statement)
    (elifs : List (Expression × List Statement)) (eb : List Statement)
    (s s1 s2 s3 s4 : CState) (cb tb elseBlock chain : List Byte)
    (hc : compileExpression cond s = (.ok cb, s1))
    (ht : compileStatements thenB (pushScope s1) = (.ok tb, s2))
    (he : compileStatements eb (pushScope (popScope s2)) =
      (.ok elseBlock, s3))
    (hch : ElifChain elifs (popScope s3) elseBlock s4 chain) :
    compileStatement (.ifStmt cond thenB elifs (some eb)) s =
      (.ok (cb ++ callOp (fnIdx "is_truthy") ++ ifStart ++ tb ++
            ifElse ++ chain ++ ifEnd), s4) := by
  have hee : (CompileM.upd pushScope
      (CompileM.bind (compileStatements eb) fun b =>
        CompileM.upd popScope (CompileM.ret b))) (popScope s2) =
      (.ok elseBlock, popScope s3) := by
    simp only [CompileM.upd_apply, CompileM.bind_ok _ he,
      CompileM.ret_apply]
  simp only [compileStatement, CompileM.bind_ok _ hc, CompileM.upd_apply,
    CompileM.bind_ok _ ht, CompileM.bind_ok _ hee,
    CompileM.bind_ok _ (goElifs_agree elifs (popScope s3) s4 elseBlock
      chain hch),
    CompileM.ret_apply]

/-- C7 witness: a concrete if with one elif and an else; the elif chain
sits in the else arm and carries the original else block in its own else
arm. -/
theorem c7_witness :
    compileStatement
        (.ifStmt (.boolLit true ⟨1, 4⟩) []
          [((.boolLit false ⟨2, 6⟩), [])] (some []))
        (initState rtStub) =
      (.ok ((i32Const 1 ++ callOp (fnIdx "box_bool")) ++
            callOp (fnIdx "is_truthy") ++ ifStart ++ [] ++
            ifElse ++
            ((i32Const 0 ++ callOp (fnIdx "box_bool")) ++
             callOp (fnIdx "is_truthy") ++ ifStart ++ [] ++
             ifElse ++ [] ++ ifEnd) ++
            ifEnd),
       initState rtStub) :=
  c7_elif_nesting (.boolLit true ⟨1, 4⟩) [] [((.boolLit false ⟨2, 6⟩), [])]
    [] (initState rtStub) (initState rtStub)
    (pushScope (initState rtStub)) (pushScope (initState rtStub))
    (initState rtStub)
    (i32Const 1 ++ callOp (fnIdx "box_bool")) [] []
    ((i32Const 0 ++ callOp (fnIdx "box_bool")) ++
     callOp (fnIdx "is_truthy") ++ ifStart ++ [] ++
     ifElse ++ [] ++ ifEnd)
    rfl rfl rfl
    (ElifChain.cons (.boolLit false ⟨2, 6⟩) [] [] (initState rtStub) []
      (initState rtStub) (initState rtStub) (pushScope (initState rtStub))
      [] (i32Const 0 ++ callOp (fnIdx "box_bool")) []
      (ElifChain.nil (initState rtStub) []) rfl rfl)

/-- Upserting a body and looking its name up returns that body. -/
theorem upsert_lookup (l : List (String × List Byte)) (name : String)
    (body : List Byte) :
    lookupBody (upsert l name body) name = some body := by
  induction l with
  | nil => simp [upsert, lookupBody, List.find?]
  | cons p rest ih =>
    by_cases h : p.1 = name
    · simp [upsert, lookupBody, List.find?, h]
    · simp only [upsert, lookupBody, List.find?, h, if_neg h]
      simp only [lookupBody] at ih
      simpa [List.find?, h] using ih

/-- C8: compiling a function declaration stores, under the name of the
function, a body consisting of the local-declaration prelude, the compiled
statement sequence, then call box_nil; return; end — so a body that falls
through without an explicit return returns a boxed nil. -/
theorem c8_fallthrough_boxed_nil (name : Ident) (params : List Ident)
    (body : List Statement) (s s2 : CState) (bb : List Byte)
    (hnew : s.userFuncs.any (fun p => p.1 = name.name) = false)
    (hb : compileStatements body
        (funcEntry params (addUserFuncS name.name params.length s)) =
      (.ok bb, s2)) :
    compileStatement (.funcDecl name params body) s =
      (.ok [],
       addFunctionBodyS name.name
         (getLocalDecls s2 ++
          (bb ++ callOp (fnIdx "box_nil") ++ returnOp) ++ endOp)
         (restoreAfterFunc s.localVarsIndex s.paramCount s.scopes s2)) ∧
    lookupBody
        (addFunctionBodyS name.name
          (getLocalDecls s2 ++
           (bb ++ callOp (fnIdx "box_nil") ++ returnOp) ++ endOp)
          (restoreAfterFunc s.localVarsIndex s.paramCount s.scopes
            s2)).funcBodies
        name.name =
      some (getLocalDecls s2 ++
            (bb ++ callOp (fnIdx "box_nil") ++ returnOp) ++ endOp) := by
  constructor
  · simp only [compileStatement, CompileM.get_apply]
    rw [if_neg (by simp [hnew])]
    simp only [CompileM.upd_apply, CompileM.bind_ok _ hb,
      CompileM.get_apply, CompileM.ret_apply]
  · exact upsert_lookup _ _ _

/-- C8 witness: a concrete one-parameter function with an empty body; the
stored body is the empty statement sequence followed by
call box_nil; return; end after the local-declaration prelude. -/
theorem c8_witness :
    compileStatement
        (.funcDecl ⟨"f", ⟨1, 6⟩⟩ [⟨"x", ⟨1, 8⟩⟩] []) (initState rtStub) =
      (.ok [],
       addFunctionBodyS "f"
         (getLocalDecls
            { initState rtStub with
                localVarsIndex := 1, paramCount := 1,
                scopes := [[("x", 0)]], userFuncs := [("f", 1)] } ++
          ([] ++ callOp (fnIdx "box_nil") ++ returnOp) ++ endOp)
         (restoreAfterFunc 0 0 [[]]
           { initState rtStub with
               localVarsIndex := 1, paramCount := 1,
               scopes := [[("x", 0)]], userFuncs := [("f", 1)] })) ∧
    lookupBody
        (addFunctionBodyS "f"
          (getLocalDecls
             { initState rtStub with
                 localVarsIndex := 1, paramCount := 1,
                 scopes := [[("x", 0)]], userFuncs := [("f", 1)] } ++
           ([] ++ callOp (fnIdx "box_nil") ++ returnOp) ++ endOp)
          (restoreAfterFunc 0 0 [[]]
            { initState rtStub with
                localVarsIndex := 1, paramCount := 1,
                scopes := [[("x", 0)]], userFuncs := [("f", 1)] })).funcBodies
        "f" =
      some (getLocalDecls
              { initState rtStub with
                  localVarsIndex := 1, paramCount := 1,
                  scopes := [[("x", 0)]], userFuncs := [("f", 1)] } ++
            ([] ++ callOp (fnIdx "box_nil") ++ returnOp) ++ endOp) :=
  c8_fallthrough_boxed_nil ⟨"f", ⟨1, 6⟩⟩ [⟨"x", ⟨1, 8⟩⟩] []
    (initState rtStub)
    { initState rtStub with
        localVarsIndex := 1, paramCount := 1,
        scopes := [[("x", 0)]], userFuncs := [("f", 1)] } []
    rfl rfl

/-- Inversion of a successful bind. -/
theorem CompileM.bind_inv {α β : Type} {m : CompileM α}
    {f : α → CompileM β} {s s2 : CState} {b : β}
    (h : (CompileM.bind m f) s = (.ok b, s2)) :
    ∃ a s1, m s = (.ok a, s1) ∧ f a s1 = (.ok b, s2) := by
  unfold CompileM.bind at h
  revert h
  cases hm : m s with
  | mk r s1 =>
    cases r with
    | ok a =>
      intro h
      exact ⟨a, s1, rfl, h⟩
    | error e =>
      intro h
      simp at h

/-- A successful liftExc carries the wrapped success and keeps the
state. -/
theorem liftExc_ok {α : Type} {e : Except String α} {s s' : CState}
    {a : α} (h : liftExc e s = (.ok a, s')) : e = .ok a ∧ s' = s := by
  cases e with
  | ok x =>
    unfold liftExc CompileM.ret at h
    simp only [Prod.mk.injEq, Except.ok.injEq] at h
    obtain ⟨h1, h2⟩ := h
    subst h1
    exact ⟨rfl, h2.symm⟩
  | error m =>
    unfold liftExc CompileM.throwErr at h
    simp at h

/-- A successful function section is an id-3 section. -/
theorem funcSectionBytes_shape {types : List FuncType}
    {userFuncs : List (String × Nat)} {v : List Byte}
    (h : funcSectionBytes types userFuncs = .ok v) :
    ∃ p, v = emitSection 3 p := by
  unfold funcSectionBytes at h
  cases hd : funcSecEntries types "function" definedFunctions with
  | error m => simp [hd, Bind.bind, Except.bind] at h
  | ok d =>
    cases hu : funcSecEntries types "user-defined function"
        (userFuncs.map (fun p => (p.1, userFnType p.2))) with
    | error m => simp [hd, hu, Bind.bind, Except.bind] at h
    | ok u =>
      simp only [hd, hu, Bind.bind, Except.bind, Functor.map, Except.map,
        Pure.pure, Except.pure, Except.ok.injEq] at h
      exact ⟨_, h.symm⟩

/-- A successful import section is an id-2 section. -/
theorem importSectionBytes_shape {types : List FuncType} {v : List Byte}
    (h : importSectionBytes types = .ok v) :
    ∃ p, v = emitSection 2 p := by
  unfold importSectionBytes at h
  cases he : importSecEntries types importFunctions with
  | error m => simp [he, Bind.bind, Except.bind] at h
  | ok entries =>
    simp only [he, Bind.bind, Except.bind, Functor.map, Except.map,
      Pure.pure, Except.pure, Except.ok.injEq] at h
    exact ⟨_, h.symm⟩

/-- A successful code section is an id-10 section. -/
theorem codeSectionBytes_shape {st : CState} {v : List Byte}
    (h : codeSectionBytes st = .ok v) :
    ∃ p, v = emitSection 10 p := by
  unfold codeSectionBytes at h
  cases hd : codeSecEntries st.funcBodies
      (definedFunctions.map (fun p => p.1)) with
  | error m => simp [hd, Bind.bind, Except.bind] at h
  | ok d =>
    cases hu : codeSecEntries st.funcBodies
        (st.userFuncs.map (fun p => p.1)) with
    | error m => simp [hd, hu, Bind.bind, Except.bind] at h
    | ok u =>
      simp only [hd, hu, Bind.bind, Except.bind, Functor.map, Except.map,
        Pure.pure, Except.pure, Except.ok.injEq] at h
      exact ⟨_, h.symm⟩

/-- Inversion of a successful compilation: the produced bytes are exactly
the WASM header followed by the eight sections in the mandated id order
(1, 2, 3, 5, 6, 7, 10, 11), with the memory, global and data sections
fully determined — the global section declaring one mutable i32
initialised to the string-table byte length plus one and the data section
holding the string-table blob at offset 0. -/
theorem compileM_ok_shape (ast : AST) (s0 : CState) (bytes : List Byte)
    (st : CState) (h : compileM ast s0 = (.ok bytes, st)) :
    ∃ p1 p2 p3 p7 p10,
      bytes = wasmHeader ++ emitSection 1 p1 ++ emitSection 2 p2 ++
        emitSection 3 p3 ++ emitSection 5 [0x01, 0x00, 0x10] ++
        emitSection 6 ([0x01, vtByte .i32, 0x01] ++
          i32Const ((tableBytes st.table).length + 1) ++ endOp) ++
        emitSection 7 p7 ++ emitSection 10 p10 ++
        emitSection 11 ([0x01, 0x00] ++ i32Const 0 ++ endOp ++
          unsignedLEB (tableBytes st.table).length ++
          tableBytes st.table) := by
  unfold compileM at h
  split at h
  · unfold CompileM.throwErr at h
    simp at h
  · unfold _compile at h
    rw [CompileM.upd_apply] at h
    obtain ⟨mainFunc, s1, hm, h⟩ := CompileM.bind_inv h
    rw [CompileM.upd_apply, CompileM.get_apply] at h
    obtain ⟨funcSec, s3, hf, h⟩ := CompileM.bind_inv h
    obtain ⟨impSec, s4, hi, h⟩ := CompileM.bind_inv h
    obtain ⟨codeSec, s5, hcode, h⟩ := CompileM.bind_inv h
    rw [CompileM.ret_apply] at h
    simp only [Prod.mk.injEq, Except.ok.injEq] at h
    obtain ⟨hbytes, hst⟩ := h
    obtain ⟨hf1, hf2⟩ := liftExc_ok hf
    obtain ⟨hi1, hi2⟩ := liftExc_ok hi
    obtain ⟨hc1, hc2⟩ := liftExc_ok hcode
    obtain ⟨pf, hpf⟩ := funcSectionBytes_shape hf1
    obtain ⟨pi, hpi⟩ := importSectionBytes_shape hi1
    obtain ⟨pc, hpc⟩ := codeSectionBytes_shape hc1
    subst hst hc2 hi2 hf2 hpf hpi hpc hbytes
    exact ⟨_, _, _, _, _, rfl⟩

/-- C2: for every AST whose compilation runs to completion without an
exception, compile reports no error and its byte vector is exactly the
8-byte WASM header 00 61 73 6D 01 00 00 00 followed by the sections with
ids 1 (Type), 2 (Import), 3 (Function), 5 (Memory), 6 (Global),
7 (Export), 10 (Code), 11 (Data), in that order and with no other
sections. -/
theorem c2_header_and_section_order (rt : List (String × List Byte))
    (ast : AST) (bytes : List Byte) (st : CState)
    (h : compileM ast (initState rt) = (.ok bytes, st)) :
    (compile rt ast).error = none ∧ (compile rt ast).bytes = bytes ∧
    ∃ p1 p2 p3 p5 p6 p7 p10 p11,
      bytes = wasmHeader ++ emitSection 1 p1 ++ emitSection 2 p2 ++
        emitSection 3 p3 ++ emitSection 5 p5 ++ emitSection 6 p6 ++
        emitSection 7 p7 ++ emitSection 10 p10 ++
        emitSection 11 p11 := by
  refine ⟨?_, ?_, ?_⟩
  · unfold compile
    rw [h]
  · unfold compile
    rw [h]
  · obtain ⟨p1, p2, p3, p7, p10, hshape⟩ :=
      compileM_ok_shape ast (initState rt) bytes st h
    exact ⟨p1, p2, p3, _, _, p7, p10, _, hshape⟩

/-- C2 witness: the section-order fact evaluated on a one-statement
program. -/
theorem c2_witness :
    (compile rtStub
        ⟨"Program", [.println (.stringLit [0x68, 0x69] ⟨1, 9⟩)]⟩).error =
      none ∧
    (compile rtStub
        ⟨"Program", [.println (.stringLit [0x68, 0x69] ⟨1, 9⟩)]⟩).bytes =
      ((compileM ⟨"Program", [.println (.stringLit [0x68, 0x69] ⟨1, 9⟩)]⟩
          (initState rtStub)).1.toOption.getD []) ∧
    ∃ p1 p2 p3 p5 p6 p7 p10 p11,
      ((compileM ⟨"Program", [.println (.stringLit [0x68, 0x69] ⟨1, 9⟩)]⟩
          (initState rtStub)).1.toOption.getD []) =
        wasmHeader ++ emitSection 1 p1 ++ emitSection 2 p2 ++
        emitSection 3 p3 ++ emitSection 5 p5 ++ emitSection 6 p6 ++
        emitSection 7 p7 ++ emitSection 10 p10 ++ emitSection 11 p11 :=
  c2_header_and_section_order rtStub
    ⟨"Program", [.println (.stringLit [0x68, 0x69] ⟨1, 9⟩)]⟩
    ((compileM ⟨"Program", [.println (.stringLit [0x68, 0x69] ⟨1, 9⟩)]⟩
        (initState rtStub)).1.toOption.getD [])
    ((compileM ⟨"Program", [.println (.stringLit [0x68, 0x69] ⟨1, 9⟩)]⟩
        (initState rtStub)).2)
    rfl

/-- C1 counterexample: a Program AST whose lowering throws a plain Error
(an unsupported unary operator) is caught and swallowed — compile returns
error = null together with an empty byte vector, although the compilation
did not succeed; so error = null does not imply a successful compilation
producing a WASM module. -/
theorem c1_counterexample :
    (compile rtStub
        ⟨"Program",
         [.exprStmt (.unary "!" (.numberLit oneBits ⟨1, 1⟩) ⟨1, 1⟩)]⟩).error
      = none ∧
    (compile rtStub
        ⟨"Program",
         [.exprStmt (.unary "!" (.numberLit oneBits ⟨1, 1⟩) ⟨1, 1⟩)]⟩).bytes
      = [] :=
  ⟨rfl, rfl⟩

/-- C1 (amended): whenever compile reports an error it is a CompilerError
carrying message, line, column and token length, and the byte vector is
empty (no partial output); when error is null the byte vector either
begins with the 8-byte WASM header (the successful case) or is empty (an
internal, non-CompilerError failure was swallowed).  The original iff —
error = null exactly when compilation succeeded — does not hold. -/
theorem c1_error_contract (rt : List (String × List Byte)) (ast : AST) :
    (∀ e, (compile rt ast).error = some e → (compile rt ast).bytes = []) ∧
    ((compile rt ast).error = none →
      (compile rt ast).bytes = [] ∨
      (compile rt ast).bytes.take 8 = wasmHeader) := by
  rcases hrun : compileM ast (initState rt) with ⟨r, st⟩
  cases r with
  | ok bytes =>
    constructor
    · intro e he
      unfold compile at he
      rw [hrun] at he
      simp at he
    · intro _
      right
      have hb : (compile rt ast).bytes = bytes := by
        unfold compile
        rw [hrun]
      obtain ⟨p1, p2, p3, p7, p10, hshape⟩ :=
        compileM_ok_shape ast (initState rt) bytes st hrun
      rw [hb, hshape]
      simp only [List.append_assoc]
      have h8 : (8 : Nat) = wasmHeader.length := rfl
      rw [h8]
      exact List.take_left _ _
  | error e =>
    cases e with
    | compiler ce =>
      constructor
      · intro e _
        unfold compile
        rw [hrun]
      · intro he
        unfold compile at he
        rw [hrun] at he
        simp at he
    | internal m =>
      constructor
      · intro e he
        unfold compile at he
        rw [hrun] at he
        simp at he
      · intro _
        left
        unfold compile
        rw [hrun]

/-- C1 witness: the amended contract evaluated on a successful
one-statement program. -/
theorem c1_witness :
    (compile rtStub ⟨"Program", [.println (.boolLit true ⟨1, 9⟩)]⟩).bytes
      = [] ∨
    (compile rtStub
        ⟨"Program", [.println (.boolLit true ⟨1, 9⟩)]⟩).bytes.take 8 =
      wasmHeader :=
  (c1_error_contract rtStub
    ⟨"Program", [.println (.boolLit true ⟨1, 9⟩)]⟩).2 rfl

/-- Every offset recorded in the string table is at most the total byte
length of the table. -/
theorem tableOffset_le (table : List (List Byte)) (v : List Byte)
    (off : Nat) (h : tableOffset table v = some off) :
    off ≤ (tableBytes table).length := by
  induction table generalizing off with
  | nil => simp [tableOffset] at h
  | cons e rest ih =>
    unfold tableOffset at h
    split_ifs at h with he
    · simp only [Option.some.injEq] at h
      omega
    · cases hro : tableOffset rest v with
      | none =>
        rw [hro] at h
        simp at h
      | some off2 =>
        rw [hro] at h
        simp only [Option.map_some', Option.some.injEq] at h
        have := ih off2 hro
        simp only [tableBytes, List.flatten_cons, List.length_append]
        simp only [tableBytes] at this
        omega

/-- C9: every compilation that runs to completion emits a Global section
declaring exactly one global, of type i32, mutable, whose init expression
is i32.const of the string-table byte length plus 1 — and that initial
value is strictly greater than every offset occupied by an interned
string in the data segment. -/
theorem c9_heap_pointer_global (rt : List (String × List Byte))
    (ast : AST) (bytes : List Byte) (st : CState)
    (h : compileM ast (initState rt) = (.ok bytes, st)) :
    (∃ p1 p2 p3 p7 p10,
      bytes = wasmHeader ++ emitSection 1 p1 ++ emitSection 2 p2 ++
        emitSection 3 p3 ++ emitSection 5 [0x01, 0x00, 0x10] ++
        emitSection 6 ([0x01, vtByte .i32, 0x01] ++
          i32Const ((tableBytes st.table).length + 1) ++ endOp) ++
        emitSection 7 p7 ++ emitSection 10 p10 ++
        emitSection 11 ([0x01, 0x00] ++ i32Const 0 ++ endOp ++
          unsignedLEB (tableBytes st.table).length ++
          tableBytes st.table)) ∧
    (∀ v off, tableOffset st.table v = some off →
      off < (tableBytes st.table).length + 1) := by
  refine ⟨compileM_ok_shape ast (initState rt) bytes st h, ?_⟩
  intro v off hoff
  have := tableOffset_le st.table v off hoff
  omega

/-- C9 witness: the global-section fact evaluated on a program that
interns one string. -/
theorem c9_witness :
    (∃ p1 p2 p3 p7 p10,
      ((compileM ⟨"Program", [.print (.stringLit [0x63, 0x39] ⟨1, 7⟩)]⟩
          (initState rtStub)).1.toOption.getD []) =
        wasmHeader ++ emitSection 1 p1 ++ emitSection 2 p2 ++
        emitSection 3 p3 ++ emitSection 5 [0x01, 0x00, 0x10] ++
        emitSection 6 ([0x01, vtByte .i32, 0x01] ++
          i32Const ((tableBytes
            ((compileM ⟨"Program", [.print (.stringLit [0x63, 0x39] ⟨1, 7⟩)]⟩
                (initState rtStub)).2).table).length + 1) ++ endOp) ++
        emitSection 7 p7 ++ emitSection 10 p10 ++
        emitSection 11 ([0x01, 0x00] ++ i32Const 0 ++ endOp ++
          unsignedLEB (tableBytes
            ((compileM ⟨"Program", [.print (.stringLit [0x63, 0x39] ⟨1, 7⟩)]⟩
                (initState rtStub)).2).table).length ++
          tableBytes
            ((compileM ⟨"Program", [.print (.stringLit [0x63, 0x39] ⟨1, 7⟩)]⟩
                (initState rtStub)).2).table)) ∧
    (∀ v off,
      tableOffset
          ((compileM ⟨"Program", [.print (.stringLit [0x63, 0x39] ⟨1, 7⟩)]⟩
              (initState rtStub)).2).table v = some off →
      off < (tableBytes
          ((compileM ⟨"Program", [.print (.stringLit [0x63, 0x39] ⟨1, 7⟩)]⟩
              (initState rtStub)).2).table).length + 1) :=
  c9_heap_pointer_global rtStub
    ⟨"Program", [.print (.stringLit [0x63, 0x39] ⟨1, 7⟩)]⟩
    ((compileM ⟨"Program", [.print (.stringLit [0x63, 0x39] ⟨1, 7⟩)]⟩
        (initState rtStub)).1.toOption.getD [])
    ((compileM ⟨"Program", [.print (.stringLit [0x63, 0x39] ⟨1, 7⟩)]⟩
        (initState rtStub)).2)
    rfl

end PinkyC
